import Mathlib

/-!
Verification development for the Mombasa auction-data ingestion engine
(`process_mombasa_data.py`).  Each Python function used by the claims is
shallowly embedded as an executable Lean definition operating on explicit
data (cells are `Option String`, numbers are `ℚ`, database tables are
lists).  Library calls made by the Python code (pandas / sqlite3 /
datetime) are modelled by their documented semantics on the inputs the
program feeds them; those models are noted in the doc comment of each
definition.
-/

set_option autoImplicit false

namespace TeaTrade

/-! ## Python string primitives -/

/-- Characters treated as whitespace by Python's `str.strip` and the
`\s` regex class (ASCII subset, which is all the pipeline produces). -/
def isPySpace (c : Char) : Bool :=
  c = ' ' || c = '\t' || c = '\n' || c = '\r' || c = '\x0b' || c = '\x0c'

/-- `str.strip()` on a character list. -/
def pyStripList (l : List Char) : List Char :=
  ((l.dropWhile isPySpace).reverse.dropWhile isPySpace).reverse

/-- ASCII upper-casing of one character, as `str.upper()` does on the
ASCII range used by the reports. -/
def asciiUpperChar (c : Char) : Char :=
  if 97 ≤ c.toNat && c.toNat ≤ 122 then Char.ofNat (c.toNat - 32) else c

/-- `str.upper()` on a character list. -/
def pyUpperList (l : List Char) : List Char := l.map asciiUpperChar

/-- `str.strip()`. -/
def pyStrip (s : String) : String := ⟨pyStripList s.data⟩

/-- `str.upper()`. -/
def pyUpper (s : String) : String := ⟨pyUpperList s.data⟩

/-- `str(x).strip().upper()`, the normalization used throughout the
processor for header cells, column names and noise detection. -/
def pyNorm (s : String) : String := pyUpper (pyStrip s)

/-- `NOISE_VALUES` from the source: noise tokens mapped to null. -/
def NOISE_VALUES : List String :=
  ["NAN", "NONE", "", "-", "NIL", "N/A", "NULL", "UNKNOWN"]

/-- `str(cell)` for a nullable cell: pandas' `astype(str)` renders a
missing value (NaN) as the string `"nan"`. -/
def pyStrCell : Option String → String
  | none => "nan"
  | some s => s

/-! ## Numeric cleaning (`clean_and_cast_numeric_columns`) -/

/-- Digit test (`[0-9]`). -/
def isDigitChar (c : Char) : Bool := 48 ≤ c.toNat && c.toNat ≤ 57

/-- Numeric value of a decimal digit character. -/
def digitVal (c : Char) : ℕ := c.toNat - 48

/-- Value of a digit string read in base 10. -/
def natOfDigits (l : List Char) : ℕ := l.foldl (fun n c => 10 * n + digitVal c) 0

/-- Model of `float(s)` on an optionally signed plain decimal literal
(`[+-] digits [. digits]`, at least one digit): returns the exact
rational value, `none` for anything unparseable.  This models
`pd.to_numeric(..., errors='coerce')` on the decimal text the cleaning
step produces; the float NaN that pandas yields for the literal
`"nan"` is represented as `none`, since NaN is null for every
downstream `notna` test. -/
def parseDigitsCore (sign : ℤ) (rest : List Char) : Option ℚ :=
  let intPart := rest.takeWhile isDigitChar
  let rest2 := rest.drop intPart.length
  if rest2.isEmpty then
    if intPart.isEmpty then none else some (mkRat (sign * natOfDigits intPart) 1)
  else if rest2.head? = some '.' then
    let fr := rest2.tail
    if fr.all isDigitChar && !(intPart.isEmpty && fr.isEmpty) then
      some (mkRat (sign * (natOfDigits intPart * 10 ^ fr.length + natOfDigits fr))
        (10 ^ fr.length))
    else none
  else none

/-- Sign handling of the decimal literal. -/
def parseDecimalCore (l : List Char) : Option ℚ :=
  if l.head? = some '-' then parseDigitsCore (-1) l.tail
  else if l.head? = some '+' then parseDigitsCore 1 l.tail
  else parseDigitsCore 1 l

/-- `pd.to_numeric(s, errors='coerce')`: surrounding whitespace is
ignored, then the decimal literal is parsed. -/
def to_numeric (s : String) : Option ℚ := parseDecimalCore (pyStripList s.data)

/-- The regex substitution `[$,] -> ''` of `clean_col`. -/
def stripMoney (l : List Char) : List Char := l.filter (fun c => !(c = '$' || c = ','))

/-- `s.split('.')[0]`: everything before the first decimal point. -/
def takeBeforeDot (l : List Char) : List Char := l.takeWhile (fun c => c ≠ '.')

/-- The inner helper `clean_col` of `clean_and_cast_numeric_columns`,
applied to a single cell: stringify (`astype(str)`), remove `$` and
`,`, for the no-decimal mode keep only the text before the first `.`,
and turn empty/whitespace-only results into null (`^\s*$ -> NaN`). -/
def clean_col_cell (allow_decimal : Bool) (v : Option String) : Option String :=
  let s1 := stripMoney (pyStrCell v).data
  let s2 := if allow_decimal then s1 else takeBeforeDot s1
  if s2.all isPySpace then none else some ⟨s2⟩

/-- One cell of `clean_and_cast_numeric_columns`: `clean_col` followed
by `pd.to_numeric(errors='coerce')`.  Both float-designated and
integer-designated columns produce the same floating-point value type
(the source casts both to `float64`); they differ only in the
`allow_decimal` flag. -/
def clean_and_cast_cell (allow_decimal : Bool) (v : Option String) : Option ℚ :=
  (clean_col_cell allow_decimal v).bind to_numeric

/-- `float_cols` from the source. -/
def float_cols : List String := ["quantity_kgs", "price", "valuation_or_rp"]

/-- `integer_like_cols` from the source. -/
def integer_like_cols : List String := ["package_count", "lots"]

/-! ## Text cleaning (`clean_text_columns`) -/

/-- One cell of `clean_text_columns`: `astype(str).str.strip().str.upper()`
followed by replacing noise tokens with null. -/
def clean_text_cell (v : Option String) : Option String :=
  let s := pyUpper (pyStrip (pyStrCell v))
  if NOISE_VALUES.contains s then none else some s

/-! ## Date parsing (`parse_date`) -/

/-- A calendar date, result of a successful parse. -/
structure CivilDate where
  year : ℤ
  month : ℕ
  day : ℕ
deriving DecidableEq, Repr

/-- Days since 1970-01-01 of a civil date (proleptic Gregorian), the
standard conversion used to model Python's `datetime` arithmetic.
`Int.fdiv` is floor division. -/
def daysFromCivil (d : CivilDate) : ℤ :=
  let y : ℤ := if d.month ≤ 2 then d.year - 1 else d.year
  let era : ℤ := Int.fdiv y 400
  let yoe : ℕ := (y - era * 400).toNat
  let mp : ℕ := if 2 < d.month then d.month - 3 else d.month + 9
  let doy : ℕ := (153 * mp + 2) / 5 + d.day - 1
  let doe : ℕ := yoe * 365 + yoe / 4 - yoe / 100 + doy
  era * 146097 + doe - 719468

/-- Civil date of a day count since 1970-01-01 (inverse conversion),
modelling what `strftime` renders after `datetime` arithmetic. -/
def civilFromDays (z0 : ℤ) : CivilDate :=
  let z : ℤ := z0 + 719468
  let era : ℤ := Int.fdiv z 146097
  let doe : ℕ := (z - era * 146097).toNat
  let yoe : ℕ := (doe - doe / 1460 + doe / 36524 - doe / 146096) / 365
  let y : ℤ := (yoe : ℤ) + era * 400
  let doy : ℕ := doe - (365 * yoe + yoe / 4 - yoe / 100)
  let mp : ℕ := (5 * doy + 2) / 153
  let d : ℕ := doy - (153 * mp + 2) / 5 + 1
  let m : ℕ := if mp < 10 then mp + 3 else mp - 9
  { year := if m ≤ 2 then y + 1 else y, month := m, day := d }

/-- Left-pad a natural number with zeros to the given width. -/
def padNat (w : ℕ) (n : ℕ) : String :=
  let s := toString n
  ⟨List.replicate (w - s.length) '0' ++ s.data⟩

/-- `strftime('%Y-%m-%d')`: ISO 8601 rendering of a date. -/
def isoFormatDate (d : CivilDate) : String :=
  padNat 4 d.year.toNat ++ "-" ++ padNat 2 d.month ++ "-" ++ padNat 2 d.day

/-- A Python value reaching `parse_date`: missing (`pd.isna`),
numeric (Excel serial day count, modelled over whole days), or text. -/
inductive PyVal where
  | vnull
  | vnum (n : ℤ)
  | vstr (s : String)
deriving DecidableEq

/-- The ordered `formats` list of `parse_date`. -/
def DATE_FORMATS : List String :=
  ["%d/%m/%Y %H:%M:%S:%f", "%Y-%m-%d %H:%M:%S", "%Y/%m/%d",
   "%d-%b-%Y", "%d/%m/%Y", "%m/%d/%Y", "%d.%m.%Y"]

/-- The `for fmt in formats: try strptime` loop: first format that
parses wins; `strp` models `datetime.strptime` (its `None` result
standing for the `ValueError` the code catches). -/
def tryFormatsWith (strp : String → String → Option CivilDate) :
    List String → String → Option CivilDate
  | [], _ => none
  | f :: fs, s =>
      match strp f s with
      | some d => some d
      | none => tryFormatsWith strp fs s

/-- `parse_date`, parameterized by models of the two library parsers it
calls: `strp` for `datetime.strptime` with a given format and `generic`
for the final `pd.to_datetime` fallback (`none` models the exception
the code catches).  Noise / missing input is rejected first; numeric
input is read as a spreadsheet serial date from epoch 1899-12-30;
text input tries the fixed format list in order, then the generic
parser; every failure yields `none` (the function is total: the Python
original returns `None` after a logged warning and never raises). -/
def parse_date (strp : String → String → Option CivilDate)
    (generic : String → Option CivilDate) : PyVal → Option String
  | .vnull => none
  | .vnum n =>
      if NOISE_VALUES.contains (pyNorm (toString n)) then none
      else some (isoFormatDate (civilFromDays (daysFromCivil ⟨1899, 12, 30⟩ + n)))
  | .vstr s =>
      if NOISE_VALUES.contains (pyNorm s) then none
      else
        match tryFormatsWith strp DATE_FORMATS s with
        | some d => some (isoFormatDate d)
        | none => (generic s).map isoFormatDate

/-! ## Header detection (`find_header_row`) -/

/-- `HEADER_KEYWORDS` from the source. -/
def HEADER_KEYWORDS : List String :=
  ["LotNo", "Garden", "Grade", "Invoice", "Pkgs", "Kilos", "RP", "Valuation",
   "Price", "Buyer", "Mark", "Lot", "Broker", "Weight", "Bags"]

/-- The set of normalized values of the non-missing cells of a row
(`set(str(v).strip().upper() for v in row if pd.notna(v))`), kept as a
list and used only through membership. -/
def normCellSet (row : List (Option String)) : List String :=
  row.filterMap (fun c => c.map pyNorm)

/-- Intersection size of the normalized keyword set with a row's
normalized cell set. -/
def rowScore (nk : List String) (row : List (Option String)) : ℕ :=
  (nk.filter (fun k => (normCellSet row).contains k)).length

/-- The scan loop of `find_header_row`: visits `(index, row)` pairs in
order and keeps the first row achieving a strictly larger match count,
starting from `(best, index) = (0, 0)`. -/
def headerLoop (nk : List String) :
    List (ℕ × List (Option String)) → ℕ × ℕ → ℕ × ℕ
  | [], acc => acc
  | p :: rest, acc =>
      headerLoop nk rest
        (if acc.1 < rowScore nk p.2 then (rowScore nk p.2, p.1) else acc)

/-- `find_header_row(df, keywords, max_rows)`: scores the first
`max_rows` rows and returns the index of the best row, defaulting to
row 0 when the best score is below `min(4, len(keywords))`.  (The
Python signature defaults `max_rows` to 15.) -/
def find_header_row (rows : List (List (Option String)))
    (keywords : List String) (max_rows : ℕ) : ℕ :=
  if (headerLoop ((keywords.map pyNorm).dedup) ((rows.take max_rows).enum) (0, 0)).1 <
      min 4 keywords.length then 0
  else (headerLoop ((keywords.map pyNorm).dedup) ((rows.take max_rows).enum) (0, 0)).2

/-! ## Column mapping (`map_columns`) -/

/-- A dataframe column: its label and its cells. -/
abbrev Column := String × List (Option String)

/-- A column map as in the source: canonical field name paired with
its accepted aliases, in declaration order. -/
abbrev ColumnMap := List (String × List String)

/-- `MARK_ALIASES` from the source. -/
def MARK_ALIASES : List String :=
  ["Selling Mark", "Garden", "Mark", "Estate", "Factory", "Selling Mark - MF Mark"]

/-- `COLUMN_MAP_LOT_DETAILS` from the source. -/
def COLUMN_MAP_LOT_DETAILS : ColumnMap :=
  [("broker", ["Broker"]),
   ("mark", MARK_ALIASES),
   ("grade", ["Grade"]),
   ("lot_number", ["LotNo", "Lot No", "Lot", "Lot.No"]),
   ("invoice_number", ["Invoice", "Inv.No", "Invoice No"]),
   ("quantity_kgs", ["Net Weight", "Kilos", "Kgs", "Quantity (Kg)", "Total Weight",
                     "Net Kgs", "Weight"]),
   ("package_count", ["Bags", "Pkgs", "Packages", "Package", "Pks", "No of Pkgs",
                      "Units", "Count"]),
   ("price", ["Purchased Price", "Final Price", "Price", "Price (USD)", "Price (USc)"]),
   ("valuation_or_rp", ["Valuation", "Asking Price", "RP"]),
   ("buyer", ["Buyer", "Buyer Name", "Final Buyer"]),
   ("sale_date_internal", ["Selling End Time", "Sale Date"]),
   ("sale_number_internal", ["Sale Code", "Auction"])]

/-- `COLUMN_MAP_GRADE_SUMMARY` from the source. -/
def COLUMN_MAP_GRADE_SUMMARY : ColumnMap :=
  [("grade", ["Region/Grade"]),
   ("lots", ["Lots"]),
   ("quantity_kgs", ["Kilos", "Pkgs", "Kgs"])]

/-- Does a normalized column name belong to an alias list? -/
def aliasHit (aliases : List String) (col : String) : Bool :=
  (aliases.map pyNorm).contains (pyNorm col)

/-- The inner loop of `map_columns` for one source column: the first
canonical field whose normalized aliases contain the normalized column
name (the `break` fires at the first hit whether or not the field is
still unclaimed). -/
def aliasMatch (cmap : ColumnMap) (col : String) : Option String :=
  (cmap.find? (fun f => aliasHit f.2 col)).map Prod.fst

/-- The `for col in df.columns` loop of `map_columns` building
`rename_dict`: a column claims its first matching field unless that
field was already claimed (`if standardized_name not in
rename_dict.values()`). -/
def buildRenameDictGo (cmap : ColumnMap) :
    List String → List (String × String) → List (String × String)
  | [], rd => rd
  | col :: cols, rd =>
      match aliasMatch cmap col with
      | some fieldName =>
          if (rd.map Prod.snd).contains fieldName then buildRenameDictGo cmap cols rd
          else buildRenameDictGo cmap cols (rd ++ [(col, fieldName)])
      | none => buildRenameDictGo cmap cols rd

/-- The complete `rename_dict`, starting from the empty dictionary. -/
def buildRenameDict (cols : List String) (cmap : ColumnMap) : List (String × String) :=
  buildRenameDictGo cmap cols []

/-- One column through `df.rename(columns=rename_dict)`: renaming is
by label, looked up in the dictionary. -/
def renameOne (rd : List (String × String)) (c : Column) : Column :=
  match rd.find? (fun p => p.1 = c.1) with
  | some p => (p.2, c.2)
  | none => c

/-- `df.rename(columns=rename_dict)` over the whole frame. -/
def renameColumns (rd : List (String × String)) (df : List Column) : List Column :=
  df.map (renameOne rd)

/-- The `for standardized_name in column_map: if missing, set to NaN`
loop: canonical fields with no column of that label are appended as
all-null columns (`n` is the row count of the frame). -/
def ensureColumns (n : ℕ) (keys : List String) (df : List Column) : List Column :=
  df ++ (keys.filter (fun k => !(df.map Prod.fst).contains k)).map
    (fun k => (k, List.replicate n (none : Option String)))

/-- `df_mapped[list(column_map.keys())]`: label-based selection; a
label that occurs several times selects every occurrence, in frame
order. -/
def selectColumns (keys : List String) (df : List Column) : List Column :=
  keys.flatMap (fun k => df.filter (fun c => c.1 = k))

/-- `map_columns(df, column_map)` on a frame with `n` rows. -/
def map_columns (n : ℕ) (df : List Column) (cmap : ColumnMap) : List Column :=
  let rd := buildRenameDict (df.map Prod.fst) cmap
  selectColumns (cmap.map Prod.fst) (ensureColumns n (cmap.map Prod.fst) (renameColumns rd df))

/-! ## Metadata merge (`determine_final_metadata`) -/

/-- Python truthiness of an optional string (`None` and `""` are
falsy). -/
def pyTruthy : Option String → Bool
  | none => false
  | some s => !(s == "")

/-- `determine_final_metadata`, applied to the results of the two
extractors (`fn_*` from `extract_metadata_from_filename`, `df_*` from
`extract_metadata_from_dataframe`).  Returns the merged pair together
with the list of warnings the code logs for still-missing fields. -/
def determine_final_metadata (fn_sn fn_sd df_sn df_sd : Option String) :
    (Option String × Option String) × List String :=
  let final_sn := if pyTruthy df_sn then df_sn else fn_sn
  let final_sd := if pyTruthy df_sd then df_sd else fn_sd
  ((final_sn, final_sd),
    (if pyTruthy final_sn then [] else ["sale number could not be determined"]) ++
    (if pyTruthy final_sd then [] else ["sale date could not be determined"]))

/-! ## Lot-details processing (`process_lot_details`, steps 3-6) -/

/-- A row of the mapped frame (`map_columns` output restricted to the
per-lot cells; the two `*_internal` metadata columns feed only the
metadata extractor that is parameterized separately). -/
structure RawLotRow where
  broker : Option String
  mark : Option String
  grade : Option String
  lot_number : Option String
  invoice_number : Option String
  quantity_kgs : Option String
  package_count : Option String
  price : Option String
  valuation_or_rp : Option String
  buyer : Option String
deriving DecidableEq

/-- A cleaned lot row: text cells normalized, numeric cells cast. -/
structure LotRow where
  broker : Option String
  mark : Option String
  grade : Option String
  lot_number : Option String
  invoice_number : Option String
  quantity_kgs : Option ℚ
  package_count : Option ℚ
  price : Option ℚ
  valuation_or_rp : Option ℚ
  buyer : Option String
deriving DecidableEq

/-- Steps 3 of `process_lot_details`: `clean_text_columns` on the text
columns then `clean_and_cast_numeric_columns` on the numeric columns
(disjoint column sets, applied cell-wise). -/
def cleanLotRow (r : RawLotRow) : LotRow where
  broker := clean_text_cell r.broker
  mark := clean_text_cell r.mark
  grade := clean_text_cell r.grade
  lot_number := clean_text_cell r.lot_number
  invoice_number := clean_text_cell r.invoice_number
  quantity_kgs := clean_and_cast_cell true r.quantity_kgs
  package_count := clean_and_cast_cell false r.package_count
  price := clean_and_cast_cell true r.price
  valuation_or_rp := clean_and_cast_cell true r.valuation_or_rp
  buyer := clean_text_cell r.buyer

/-- `dropna(subset=['lot_number','mark','grade','quantity_kgs'],
how='all')`: true when every essential cell is null. -/
def isEssentialAllNull (r : LotRow) : Bool :=
  r.lot_number.isNone && r.mark.isNone && r.grade.isNone && r.quantity_kgs.isNone

/-- Steps 3, 5 and 6 of `process_lot_details`: clean, drop rows whose
essential cells are all null, drop rows without a `lot_number`, and
split into `(offers, sales)` where sales are the rows with a non-null
price and offers are every remaining row.  (Step 4's metadata stamping
adds file-level constants, applied in `toOfferRow`/`toSaleRow`; step
7's column selection drops `price` from offers and `valuation_or_rp`
from sales, likewise applied there.) -/
def process_lot_details (rows : List RawLotRow) : List LotRow × List LotRow :=
  let cleaned := rows.map cleanLotRow
  let kept := (cleaned.filter (fun r => !isEssentialAllNull r)).filter
    (fun r => r.lot_number.isSome)
  (kept, kept.filter (fun r => r.price.isSome))

/-! ## Persistence (`insert_data`) and the processing ledger -/

/-- The natural key of the `auction_offers` / `auction_sales` tables:
`UNIQUE(source_location, sale_number, lot_number)`.  `source_location`
and `lot_number` are `NOT NULL`; `sale_number` is nullable. -/
structure NaturalKey where
  source_location : String
  sale_number : Option String
  lot_number : String
deriving DecidableEq

/-- SQLite uniqueness violation between two keys: all three columns
must compare equal, and SQL `NULL` compares equal to nothing, so rows
with a null `sale_number` never conflict. -/
def keyConflict (a b : NaturalKey) : Bool :=
  a.source_location = b.source_location && a.lot_number = b.lot_number &&
    a.sale_number.isSome && a.sale_number = b.sale_number

/-- Does inserting `r` into `table` violate the uniqueness
constraint? -/
def hasConflict {α : Type} (key : α → NaturalKey) (table : List α) (r : α) : Bool :=
  table.any (fun t => keyConflict (key t) (key r))

/-- The bulk path of `insert_data` (`df.to_sql(..., if_exists='append')`):
rows are appended sequentially inside one transaction; the first
uniqueness violation raises `IntegrityError` and rolls everything
back (`none`). -/
def tryBulk {α : Type} (key : α → NaturalKey) (table : List α) :
    List α → Option (List α)
  | [] => some table
  | r :: rs => if hasConflict key table r then none else tryBulk key (table ++ [r]) rs

/-- The fallback path of `insert_data`: insert row by row, silently
skipping each row that violates the uniqueness constraint, counting
the rows actually inserted. -/
def rowByRow {α : Type} (key : α → NaturalKey) (table : List α) :
    List α → ℕ × List α
  | [] => (0, table)
  | r :: rs =>
      if hasConflict key table r then rowByRow key table rs
      else
        let res := rowByRow key (table ++ [r]) rs
        (res.1 + 1, res.2)

/-- `insert_data(conn, df, table_name)`: returns the inserted count
and the new table contents.  `failure` models any exception other
than a uniqueness violation raised during the bulk insert (connection
or storage error): it is caught by the generic handler, the
transaction rolls back and the function returns 0.  An empty frame
returns 0 immediately. -/
def insert_data {α : Type} (key : α → NaturalKey) (failure : Bool)
    (table df : List α) : ℕ × List α :=
  if df.isEmpty then (0, table)
  else if failure then (0, table)
  else
    match tryBulk key table df with
    | some t => (df.length, t)
    | none => rowByRow key table df

/-- `SOURCE_LOCATION` from the source. -/
def SOURCE_LOCATION : String := "Mombasa"

/-- A stored `auction_offers` row (the offer column selection of
`process_lot_details`, step 7). -/
structure OfferRow where
  source_location : String
  sale_date : Option String
  sale_number : Option String
  broker : Option String
  mark : Option String
  grade : Option String
  lot_number : String
  invoice_number : Option String
  quantity_kgs : Option ℚ
  package_count : Option ℚ
  valuation_or_rp : Option ℚ
  source_file_identifier : String
  processed_timestamp : String
deriving DecidableEq

/-- A stored `auction_sales` row (the sale column selection of
`process_lot_details`, step 7). -/
structure SaleRow where
  source_location : String
  sale_date : Option String
  sale_number : Option String
  broker : Option String
  mark : Option String
  grade : Option String
  lot_number : String
  invoice_number : Option String
  quantity_kgs : Option ℚ
  package_count : Option ℚ
  price : Option ℚ
  buyer : Option String
  source_file_identifier : String
  processed_timestamp : String
deriving DecidableEq

/-- Natural key of an offer row. -/
def offerKey (r : OfferRow) : NaturalKey :=
  ⟨r.source_location, r.sale_number, r.lot_number⟩

/-- Natural key of a sale row. -/
def saleKey (r : SaleRow) : NaturalKey :=
  ⟨r.source_location, r.sale_number, r.lot_number⟩

/-- Step 4 metadata stamping plus the offer column selection, for one
validated row (validation guarantees `lot_number.isSome`; the `NOT
NULL` table column is its value). -/
def toOfferRow (sn sd : Option String) (fid ts : String) (r : LotRow) : OfferRow where
  source_location := SOURCE_LOCATION
  sale_date := sd
  sale_number := sn
  broker := r.broker
  mark := r.mark
  grade := r.grade
  lot_number := r.lot_number.getD ""
  invoice_number := r.invoice_number
  quantity_kgs := r.quantity_kgs
  package_count := r.package_count
  valuation_or_rp := r.valuation_or_rp
  source_file_identifier := fid
  processed_timestamp := ts

/-- Step 4 metadata stamping plus the sale column selection. -/
def toSaleRow (sn sd : Option String) (fid ts : String) (r : LotRow) : SaleRow where
  source_location := SOURCE_LOCATION
  sale_date := sd
  sale_number := sn
  broker := r.broker
  mark := r.mark
  grade := r.grade
  lot_number := r.lot_number.getD ""
  invoice_number := r.invoice_number
  quantity_kgs := r.quantity_kgs
  package_count := r.package_count
  price := r.price
  buyer := r.buyer
  source_file_identifier := fid
  processed_timestamp := ts

/-- A `processing_log` row (`UNIQUE(file_identifier, data_type)`). -/
structure LogEntry where
  file_identifier : String
  data_type : String
  records_inserted : ℕ
  status : String
  processed_timestamp : String
deriving DecidableEq

/-- `log_processing_status`: `INSERT OR REPLACE` keyed on
`(file_identifier, data_type)` — the conflicting row, if any, is
removed and the fresh row stored. -/
def log_processing_status (log : List LogEntry) (fid dt : String) (n : ℕ)
    (status ts : String) : List LogEntry :=
  log.filter (fun e => !(e.file_identifier = fid && e.data_type = dt)) ++
    [⟨fid, dt, n, status, ts⟩]

/-- `check_already_processed`: the ledger row for the fingerprint and
data type exists and has status exactly `SUCCESS`. -/
def check_already_processed (log : List LogEntry) (fid dt : String) : Bool :=
  match log.find? (fun e => e.file_identifier = fid && e.data_type = dt) with
  | some e => e.status = "SUCCESS"
  | none => false

/-- The store that outlives a single file's processing. -/
structure DBState where
  log : List LogEntry
  offers : List OfferRow
  sales : List SaleRow
deriving DecidableEq

/-- The offers frame built from a file's rows (steps 1-7 of
`process_lot_details` for the offers side). -/
def offersFrame (rows : List RawLotRow) (sn sd : Option String)
    (fid ts : String) : List OfferRow :=
  (process_lot_details rows).1.map (toOfferRow sn sd fid ts)

/-- The sales frame built from a file's rows. -/
def salesFrame (rows : List RawLotRow) (sn sd : Option String)
    (fid ts : String) : List SaleRow :=
  (process_lot_details rows).2.map (toSaleRow sn sd fid ts)

/-- The `if not df.empty: insert_data(...)` guard of the orchestrator,
for the offers table. -/
def insOffers (fo : Bool) (table : List OfferRow) (df : List OfferRow) :
    ℕ × List OfferRow :=
  if df.isEmpty then (0, table) else insert_data offerKey fo table df

/-- The same guard for the sales table. -/
def insSales (fs : Bool) (table : List SaleRow) (df : List SaleRow) :
    ℕ × List SaleRow :=
  if df.isEmpty then (0, table) else insert_data saleKey fs table df

/-- The `OFFER`/`SALE` body of `process_structured_data`: process the
lots, insert both frames, and log `SUCCESS` when any row was newly
inserted and `NO_NEW_DATA` otherwise. -/
def runLotInsert (fid dt : String) (rows : List RawLotRow)
    (sn sd : Option String) (ts : String) (failOffers failSales : Bool)
    (st : DBState) : DBState :=
  { log := log_processing_status st.log fid dt
      ((insOffers failOffers st.offers (offersFrame rows sn sd fid ts)).1 +
        (insSales failSales st.sales (salesFrame rows sn sd fid ts)).1)
      (if 0 < (insOffers failOffers st.offers (offersFrame rows sn sd fid ts)).1 +
          (insSales failSales st.sales (salesFrame rows sn sd fid ts)).1
        then "SUCCESS" else "NO_NEW_DATA") ts,
    offers := (insOffers failOffers st.offers (offersFrame rows sn sd fid ts)).2,
    sales := (insSales failSales st.sales (salesFrame rows sn sd fid ts)).2 }

/-- `process_structured_data(filepath, data_type, conn)`.  Arguments
model the run's environment: `fid` is the fingerprint
`f"{basename}|{mtime}"`, `rows` the mapped content produced by
`read_file` + `map_columns` (one entry per dataframe row, so the
`df.empty` test is `rows.isEmpty`), `sn`/`sd` the metadata resolved by
`determine_final_metadata`, `ts` the run timestamp, and
`failOffers`/`failSales` whether the respective bulk insert hits a
non-uniqueness storage error.  Control flow follows the source: skip
when the ledger holds a `SUCCESS` entry for `(fid, dt)`; return
without logging for an unknown data type; log `FAILURE` for an empty
frame; for `OFFER`/`SALE` process lots and insert both frames (each
insert guarded by its emptiness test); for `SUMMARY` the placeholder
inserts nothing; finally log `SUCCESS` when any row was inserted and
`NO_NEW_DATA` otherwise. -/
def process_structured_data (fid dt : String) (rows : List RawLotRow)
    (sn sd : Option String) (ts : String) (failOffers failSales : Bool)
    (st : DBState) : DBState :=
  if check_already_processed st.log fid dt then st
  else if !(dt = "OFFER" || dt = "SALE" || dt = "SUMMARY") then st
  else if rows.isEmpty then
    { st with log := log_processing_status st.log fid dt 0 "FAILURE" ts }
  else if dt = "OFFER" || dt = "SALE" then
    runLotInsert fid dt rows sn sd ts failOffers failSales st
  else
    { st with log := log_processing_status st.log fid dt 0 "NO_NEW_DATA" ts }

/-- The `UNIQUE(file_identifier, data_type)` constraint of the
`processing_log` table, as an invariant on ledger states. -/
def logKeysUnique (log : List LogEntry) : Prop :=
  List.Pairwise (fun a b => ¬(a.file_identifier = b.file_identifier ∧ a.data_type = b.data_type)) log

/-! ## Claim C2: offer/sale classification -/

/-- **C2**: in `process_lot_details`, after cleaning, every row whose
`lot_number`, `mark`, `grade` and `quantity_kgs` are all null is
dropped, and every row with a null `lot_number` is dropped regardless
of its other fields; of the remaining rows, a row is in the sales
output iff its price is non-null, while the offers output contains
every remaining row; so a priced row appears in both outputs, an
unpriced row only in the offers output, and a row missing
`lot_number` in neither. -/
theorem C2_offer_sale_split (rows : List RawLotRow) :
    (∀ r : LotRow, r ∈ (process_lot_details rows).1 ↔
      (r ∈ rows.map cleanLotRow ∧ isEssentialAllNull r = false ∧ r.lot_number.isSome = true)) ∧
    (∀ r : LotRow, r ∈ (process_lot_details rows).2 ↔
      (r ∈ (process_lot_details rows).1 ∧ r.price.isSome = true)) ∧
    (∀ r : LotRow, isEssentialAllNull r = true →
      r ∉ (process_lot_details rows).1 ∧ r ∉ (process_lot_details rows).2) ∧
    (∀ r : LotRow, r.lot_number = none →
      r ∉ (process_lot_details rows).1 ∧ r ∉ (process_lot_details rows).2) ∧
    (∀ r : LotRow, r ∈ (process_lot_details rows).1 → r.price.isSome = true →
      r ∈ (process_lot_details rows).2) ∧
    (∀ r : LotRow, r ∈ (process_lot_details rows).1 → r.price = none →
      r ∉ (process_lot_details rows).2) := by
  have hoff : ∀ r : LotRow, r ∈ (process_lot_details rows).1 ↔
      (r ∈ rows.map cleanLotRow ∧ isEssentialAllNull r = false ∧ r.lot_number.isSome = true) := by
    intro r
    simp [process_lot_details, List.mem_filter, and_assoc]
    intro x hx hcl
    tauto
  have hsal : ∀ r : LotRow, r ∈ (process_lot_details rows).2 ↔
      (r ∈ (process_lot_details rows).1 ∧ r.price.isSome = true) := by
    intro r
    simp [process_lot_details, List.mem_filter, and_assoc]
    intro x hx hcl
    tauto
  refine ⟨hoff, hsal, ?_, ?_, ?_, ?_⟩
  · intro r hr
    constructor
    · intro hmem
      rcases (hoff r).mp hmem with ⟨-, h2, -⟩
      simp [hr] at h2
    · intro hmem
      rcases (hsal r).mp hmem with ⟨hmem1, -⟩
      rcases (hoff r).mp hmem1 with ⟨-, h2, -⟩
      simp [hr] at h2
  · intro r hr
    constructor
    · intro hmem
      rcases (hoff r).mp hmem with ⟨-, -, h3⟩
      simp [hr] at h3
    · intro hmem
      rcases (hsal r).mp hmem with ⟨hmem1, -⟩
      rcases (hoff r).mp hmem1 with ⟨-, -, h3⟩
      simp [hr] at h3
  · intro r h1 h2
    exact (hsal r).mpr ⟨h1, h2⟩
  · intro r h1 h2 hmem
    rcases (hsal r).mp hmem with ⟨-, hp⟩
    simp [h2] at hp

/-- Witness for C2 at a concrete batch: a priced lot, an unpriced lot
and a lot-numberless row; the priced lot lands in the sales output. -/
theorem C2_offer_sale_split_witness :
    cleanLotRow ⟨some "BRK", some "FARM X", some "PEKOE", some "L1", none,
      some "1000", some "10", some "2.50", none, some "BUY"⟩ ∈
      (process_lot_details
        [⟨some "BRK", some "FARM X", some "PEKOE", some "L1", none,
          some "1000", some "10", some "2.50", none, some "BUY"⟩,
         ⟨some "BRK", some "FARM Y", some "PEKOE", some "L2", none,
          some "500", some "5", none, some "2.10", none⟩,
         ⟨none, none, none, none, none, none, none, none, none, none⟩]).2 :=
  ((C2_offer_sale_split
    [⟨some "BRK", some "FARM X", some "PEKOE", some "L1", none,
      some "1000", some "10", some "2.50", none, some "BUY"⟩,
     ⟨some "BRK", some "FARM Y", some "PEKOE", some "L2", none,
      some "500", some "5", none, some "2.10", none⟩,
     ⟨none, none, none, none, none, none, none, none, none, none⟩]).2.2.2.2.1
    _ (by decide) (by decide))

/-! ## Claim C6: metadata merge policy -/

/-- **C6**: `determine_final_metadata` resolves `sale_number` and
`sale_date` independently; for each field the embedded-data value is
used whenever present, otherwise the filename-derived value, and when
neither source yields the field the result is null and a warning is
recorded.  The hypotheses record that the extractors never produce an
empty (Python-falsy) string: a filename sale number is a nonempty
digit group, and dates are `strftime` output. -/
theorem C6_metadata_priority (fn_sn fn_sd df_sn df_sd : Option String)
    (h1 : df_sn ≠ some "") (h2 : df_sd ≠ some "") :
    ((determine_final_metadata fn_sn fn_sd df_sn df_sd).1.1 =
      if df_sn.isSome then df_sn else fn_sn) ∧
    ((determine_final_metadata fn_sn fn_sd df_sn df_sd).1.2 =
      if df_sd.isSome then df_sd else fn_sd) ∧
    (df_sn = none → fn_sn = none →
      (determine_final_metadata fn_sn fn_sd df_sn df_sd).1.1 = none ∧
      "sale number could not be determined" ∈
        (determine_final_metadata fn_sn fn_sd df_sn df_sd).2) ∧
    (df_sd = none → fn_sd = none →
      (determine_final_metadata fn_sn fn_sd df_sn df_sd).1.2 = none ∧
      "sale date could not be determined" ∈
        (determine_final_metadata fn_sn fn_sd df_sn df_sd).2) ∧
    (∀ x y : Option String, (determine_final_metadata fn_sn x df_sn y).1.1 =
      (determine_final_metadata fn_sn fn_sd df_sn df_sd).1.1) ∧
    (∀ x y : Option String, (determine_final_metadata x fn_sd y df_sd).1.2 =
      (determine_final_metadata fn_sn fn_sd df_sn df_sd).1.2) := by
  have truthy_of_ne : ∀ v : Option String, v ≠ some "" → pyTruthy v = v.isSome := by
    intro v hv
    cases v with
    | none => rfl
    | some s =>
        have hs : s ≠ "" := fun h => hv (by simp [h])
        simp [pyTruthy, hs]
  refine ⟨?_, ?_, ?_, ?_, ?_, ?_⟩
  · simp [determine_final_metadata, truthy_of_ne df_sn h1]
  · simp [determine_final_metadata, truthy_of_ne df_sd h2]
  · intro ha hb
    simp [determine_final_metadata, ha, hb, pyTruthy]
  · intro ha hb
    simp [determine_final_metadata, ha, hb, pyTruthy]
  · intro x y
    simp [determine_final_metadata]
  · intro x y
    simp [determine_final_metadata]

/-- Witness for C6: embedded sale number `"35"` beats filename
`"12"`; with no embedded date, the filename date is used. -/
theorem C6_metadata_priority_witness :
    ((determine_final_metadata (some "12") (some "2025-07-29") (some "35") none).1.1 =
      if (some "35" : Option String).isSome then some "35" else some "12") ∧
    ((determine_final_metadata (some "12") (some "2025-07-29") (some "35") none).1.2 =
      if (none : Option String).isSome then none else some "2025-07-29") :=
  ⟨(C6_metadata_priority (some "12") (some "2025-07-29") (some "35") none
      (by decide) (by decide)).1,
   (C6_metadata_priority (some "12") (some "2025-07-29") (some "35") none
      (by decide) (by decide)).2.1⟩

/-! ## Claim C7: numeric cleaning -/

/-- Whitespace is neither a currency marker nor a separator. -/
lemma isPySpace_not_money {c : Char} (h : isPySpace c = true) :
    (!(c = '$' || c = ',')) = true := by
  cases hb : (decide (c = '$') || decide (c = ',')) with
  | false => simp [hb]
  | true =>
      have h1 : c = '$' ∨ c = ',' := by simpa using hb
      rcases h1 with h1 | h1 <;> (subst h1; exact absurd h (by decide))

/-- Whitespace is not a decimal point. -/
lemma isPySpace_not_dot {c : Char} (h : isPySpace c = true) : c ≠ '.' := by
  intro hc
  subst hc
  exact absurd h (by decide)

/-- Members of the dot-truncated text are members of the text. -/
lemma mem_of_mem_takeBeforeDot {c : Char} {l : List Char}
    (h : c ∈ takeBeforeDot l) : c ∈ l :=
  List.takeWhile_subset _ h

/-- Members of the money-stripped text are members of the text. -/
lemma mem_of_mem_stripMoney {c : Char} {l : List Char}
    (h : c ∈ stripMoney l) : c ∈ l :=
  List.mem_of_mem_filter h

/-- `str.strip` only removes characters. -/
lemma mem_of_mem_pyStripList {c : Char} {l : List Char}
    (h : c ∈ pyStripList l) : c ∈ l := by
  unfold pyStripList at h
  rw [List.mem_reverse] at h
  have h2 := List.dropWhile_subset (l := (l.dropWhile isPySpace).reverse) isPySpace h
  rw [List.mem_reverse] at h2
  exact List.dropWhile_subset isPySpace h2

/-- No decimal point survives `split('.')[0]`. -/
lemma not_dot_mem_takeBeforeDot (l : List Char) : '.' ∉ takeBeforeDot l := by
  intro h
  have := List.mem_takeWhile_imp h
  simp at this

/-- Removing `$`/`,` again after truncating at the decimal point does
nothing: the truncated text is already free of them. -/
lemma stripMoney_takeBeforeDot_stripMoney (l : List Char) :
    stripMoney (takeBeforeDot (stripMoney l)) = takeBeforeDot (stripMoney l) := by
  apply List.filter_eq_self.mpr
  intro c hc
  exact List.of_mem_filter (p := fun c => !(c = '$' || c = ','))
    (mem_of_mem_takeBeforeDot hc)

/-- On dot-free input the digits parser lands in the integer branch
and yields a denominator-1 (whole-number) value. -/
lemma parseDigitsCore_den_one (sign : ℤ) (rest : List Char) (hdot : '.' ∉ rest)
    (q : ℚ) (h : parseDigitsCore sign rest = some q) : q.den = 1 := by
  unfold parseDigitsCore at h
  by_cases h1 : (rest.drop (rest.takeWhile isDigitChar).length).isEmpty
  · rw [if_pos h1] at h
    by_cases h2 : (rest.takeWhile isDigitChar).isEmpty
    · rw [if_pos h2] at h
      cases h
    · rw [if_neg h2] at h
      have hv := Option.some.inj h
      rw [← hv, Rat.mkRat_one]
      exact Rat.den_intCast _
  · rw [if_neg h1] at h
    by_cases h2 : (rest.drop (rest.takeWhile isDigitChar).length).head? = some '.'
    · exfalso
      apply hdot
      have hmem : '.' ∈ rest.drop (rest.takeWhile isDigitChar).length :=
        List.mem_of_mem_head? (Option.mem_def.mpr h2)
      exact List.drop_subset _ rest hmem
    · rw [if_neg h2] at h
      cases h

/-- Dot-free input gives a whole number (denominator 1) from the full
decimal parser. -/
lemma parseDecimalCore_den_one (l : List Char) (hdot : '.' ∉ l) (q : ℚ)
    (h : parseDecimalCore l = some q) : q.den = 1 := by
  have htail : '.' ∉ l.tail := fun hm => hdot (List.mem_of_mem_tail hm)
  unfold parseDecimalCore at h
  by_cases h1 : l.head? = some '-'
  · rw [if_pos h1] at h
    exact parseDigitsCore_den_one _ _ htail q h
  · rw [if_neg h1] at h
    by_cases h2 : l.head? = some '+'
    · rw [if_pos h2] at h
      exact parseDigitsCore_den_one _ _ htail q h
    · rw [if_neg h2] at h
      exact parseDigitsCore_den_one _ _ hdot q h

/-- **C7**: numeric cleaning strips currency markers and thousands
separators; integer-designated columns truncate at the decimal point
(so `"12.9"` gives 12, not 13, and in general the integer-column
cleaning equals the float-column cleaning of the dot-truncated text,
always producing a whole number); `"$1,234.50"` in a float column
gives 1234.50; empty or whitespace-only input gives null; unparseable
input gives null; and both column families produce the same
floating-point value type by construction. -/
theorem C7_numeric_cleaning :
    (clean_and_cast_cell true (some "$1,234.50") = some (1234.50 : ℚ)) ∧
    (clean_and_cast_cell false (some "12.9") = some 12) ∧
    (∀ (b : Bool) (s : String), s.data.all isPySpace = true →
      clean_and_cast_cell b (some s) = none) ∧
    (clean_and_cast_cell true (some "twelve") = none) ∧
    (∀ s : String, clean_and_cast_cell false (some s) =
      clean_and_cast_cell true (some ⟨takeBeforeDot (stripMoney s.data)⟩)) ∧
    (∀ (s : String) (q : ℚ), clean_and_cast_cell false (some s) = some q → q.den = 1) := by
  refine ⟨?_, by decide, ?_, by decide, ?_, ?_⟩
  · have h : clean_and_cast_cell true (some "$1,234.50") = some (mkRat 2469 2) := by decide
    rw [h]
    congr 1
    rw [Rat.mkRat_eq_div]
    norm_num
  · intro b s hs
    have hall : ∀ l : List Char, l.all isPySpace = true → stripMoney l = l := by
      intro l hl
      exact List.filter_eq_self.mpr fun c hc => isPySpace_not_money (List.all_eq_true.mp hl c hc)
    have halld : ∀ l : List Char, l.all isPySpace = true → takeBeforeDot l = l := by
      intro l hl
      exact List.takeWhile_eq_self_iff.mpr fun c hc =>
        by simpa using isPySpace_not_dot (List.all_eq_true.mp hl c hc)
    cases b <;>
      simp [clean_and_cast_cell, clean_col_cell, pyStrCell, hall s.data hs,
        halld s.data hs, hs]
  · intro s
    simp only [clean_and_cast_cell, clean_col_cell, pyStrCell,
      stripMoney_takeBeforeDot_stripMoney, Bool.false_eq_true, if_false, if_true]
  · intro s q h
    simp only [clean_and_cast_cell, clean_col_cell, pyStrCell, Bool.false_eq_true,
      if_false] at h
    rcases he : (takeBeforeDot (stripMoney s.data)).all isPySpace with _ | _ <;>
      rw [he] at h
    · simp only [Bool.false_eq_true, if_false] at h
      have hdot : '.' ∉ pyStripList (takeBeforeDot (stripMoney s.data)) := by
        intro hm
        exact not_dot_mem_takeBeforeDot (stripMoney s.data) (mem_of_mem_pyStripList hm)
      exact parseDecimalCore_den_one _ hdot q h
    · simp at h

/-- Witness for C7: empty and whitespace-only cells clean to null in
both column families. -/
theorem C7_numeric_cleaning_witness :
    clean_and_cast_cell true (some "") = none ∧
    clean_and_cast_cell false (some "  ") = none :=
  ⟨C7_numeric_cleaning.2.2.1 true "" (by decide),
   C7_numeric_cleaning.2.2.1 false "  " (by decide)⟩

/-! ## Claim C8: date parsing -/

/-- If no format applies, the format loop fails. -/
lemma tryFormatsWith_eq_none (strp : String → String → Option CivilDate)
    (fs : List String) (s : String) (h : ∀ f ∈ fs, strp f s = none) :
    tryFormatsWith strp fs s = none := by
  induction fs with
  | nil => rfl
  | cons f fs ih =>
      unfold tryFormatsWith
      rw [h f (List.mem_cons_self f fs)]
      exact ih fun g hg => h g (List.mem_cons_of_mem f hg)

/-- The first applicable format wins. -/
lemma tryFormatsWith_first (strp : String → String → Option CivilDate)
    (pre post : List String) (f s : String) (d : CivilDate)
    (hpre : ∀ g ∈ pre, strp g s = none) (hf : strp f s = some d) :
    tryFormatsWith strp (pre ++ f :: post) s = some d := by
  induction pre with
  | nil =>
      unfold tryFormatsWith
      rw [List.nil_append]
      simp only [hf]
  | cons g gs ih =>
      unfold tryFormatsWith
      rw [List.cons_append]
      simp only [hpre g (List.mem_cons_self g gs)]
      exact ih fun g' hg' => hpre g' (List.mem_cons_of_mem g hg')

/-- **C8**: `parse_date` rejects missing and noise input, interprets
numeric input as a spreadsheet serial date with epoch 1899-12-30
(serial 0 renders as `1899-12-30`), tries the fixed format list in
order (the first applicable format wins), falls back to the generic
parser when no format applies, and returns null when everything fails
— the embedding is a total function, as the original catches every
parse error and never raises. -/
theorem C8_parse_date (strp : String → String → Option CivilDate)
    (generic : String → Option CivilDate) :
    (parse_date strp generic .vnull = none) ∧
    (∀ s : String, NOISE_VALUES.contains (pyNorm s) = true →
      parse_date strp generic (.vstr s) = none) ∧
    (∀ n : ℤ, NOISE_VALUES.contains (pyNorm (toString n)) = false →
      parse_date strp generic (.vnum n) =
        some (isoFormatDate (civilFromDays (daysFromCivil ⟨1899, 12, 30⟩ + n)))) ∧
    (parse_date strp generic (.vnum 0) = some "1899-12-30") ∧
    (∀ s : String, NOISE_VALUES.contains (pyNorm s) = false →
      (∀ f ∈ DATE_FORMATS, strp f s = none) →
      parse_date strp generic (.vstr s) = (generic s).map isoFormatDate) ∧
    (∀ (s f : String) (pre post : List String) (d : CivilDate),
      NOISE_VALUES.contains (pyNorm s) = false →
      DATE_FORMATS = pre ++ f :: post →
      (∀ g ∈ pre, strp g s = none) →
      strp f s = some d →
      parse_date strp generic (.vstr s) = some (isoFormatDate d)) := by
  refine ⟨rfl, ?_, ?_, ?_, ?_, ?_⟩
  · intro s hs
    have hs' : pyNorm s ∈ NOISE_VALUES := by simpa using hs
    simp [parse_date, hs']
  · intro n hn
    have hn' : pyNorm (toString n) ∉ NOISE_VALUES := by simpa using hn
    simp [parse_date, hn']
  · have h0 : NOISE_VALUES.contains (pyNorm (toString (0 : ℤ))) = false := by decide
    show (if NOISE_VALUES.contains (pyNorm (toString (0 : ℤ))) = true then none
      else some (isoFormatDate (civilFromDays (daysFromCivil ⟨1899, 12, 30⟩ + 0)))) =
        some "1899-12-30"
    rw [h0]
    decide
  · intro s hs hall
    have hs' : pyNorm s ∉ NOISE_VALUES := by simpa using hs
    simp [parse_date, hs', tryFormatsWith_eq_none strp DATE_FORMATS s hall]
  · intro s f pre post d hs hsplit hpre hf
    have hs' : pyNorm s ∉ NOISE_VALUES := by simpa using hs
    simp [parse_date, hs', hsplit, tryFormatsWith_first strp pre post f s d hpre hf]

/-- Witness for C8: with library parsers that fail on everything, a
noise token and unparseable text give null, and serial 0 gives the
epoch date. -/
theorem C8_parse_date_witness :
    (parse_date (fun _ _ => none) (fun _ => none) (.vstr " NIL ") = none) ∧
    (parse_date (fun _ _ => none) (fun _ => none) (.vstr "JUNKDATE") = none) ∧
    (parse_date (fun _ _ => none) (fun _ => none) (.vnum 0) = some "1899-12-30") :=
  ⟨(C8_parse_date _ _).2.1 " NIL " (by decide),
   ((C8_parse_date _ _).2.2.2.2.1 "JUNKDATE" (by decide) (fun f _ => rfl)).trans rfl,
   (C8_parse_date _ _).2.2.2.1⟩

/-! ## Claim C4: header detection -/

/-- The scan loop never moves off an accumulator that already beats
every remaining row. -/
lemma headerLoop_stable (nk : List String) :
    ∀ (l : List (ℕ × List (Option String))) (acc : ℕ × ℕ),
      (∀ p ∈ l, ¬(acc.1 < rowScore nk p.2)) → headerLoop nk l acc = acc := by
  intro l
  induction l with
  | nil => intro acc _; rfl
  | cons p rest ih =>
      intro acc hall
      unfold headerLoop
      rw [if_neg (hall p (List.mem_cons_self p rest))]
      exact ih acc fun q hq => hall q (List.mem_cons_of_mem p hq)

/-- The scan loop's running best never exceeds the bound `t` if the
start and every row are below it. -/
lemma headerLoop_lt (nk : List String) (t : ℕ) :
    ∀ (l : List (ℕ × List (Option String))) (acc : ℕ × ℕ),
      acc.1 < t → (∀ p ∈ l, rowScore nk p.2 < t) →
      (headerLoop nk l acc).1 < t := by
  intro l
  induction l with
  | nil => intro acc hacc _; exact hacc
  | cons p rest ih =>
      intro acc hacc hall
      unfold headerLoop
      by_cases hc : acc.1 < rowScore nk p.2
      · rw [if_pos hc]
        exact ih _ (hall p (List.mem_cons_self p rest))
          fun q hq => hall q (List.mem_cons_of_mem p hq)
      · rw [if_neg hc]
        exact ih _ hacc fun q hq => hall q (List.mem_cons_of_mem p hq)

/-- When one indexed row strictly beats every other and the start, the
scan loop returns exactly its score and index. -/
lemma headerLoop_finds (nk : List String) (i : ℕ) (row : List (Option String)) :
    ∀ (l : List (ℕ × List (Option String))) (acc : ℕ × ℕ),
      (i, row) ∈ l →
      (∀ p ∈ l, p.1 ≠ i → rowScore nk p.2 < rowScore nk row) →
      (∀ p ∈ l, p.1 = i → p.2 = row) →
      acc.1 < rowScore nk row →
      headerLoop nk l acc = (rowScore nk row, i) := by
  intro l
  induction l with
  | nil => intro acc hmem; cases hmem
  | cons p rest ih =>
      intro acc hmem hlt hidx hacc
      by_cases hpi : p.1 = i
      · have hrow : p.2 = row := hidx p (List.mem_cons_self p rest) hpi
        unfold headerLoop
        rw [hrow, if_pos hacc, hpi]
        apply headerLoop_stable
        intro q hq
        by_cases hqi : q.1 = i
        · rw [hidx q (List.mem_cons_of_mem p hq) hqi]
          exact lt_irrefl _
        · exact fun hlt2 => absurd hlt2
            (not_lt_of_ge (le_of_lt (hlt q (List.mem_cons_of_mem p hq) hqi)))
      · have hsc : rowScore nk p.2 < rowScore nk row :=
          hlt p (List.mem_cons_self p rest) hpi
        have hmem2 : (i, row) ∈ rest := by
          rcases List.mem_cons.mp hmem with heq | hm
          · exact absurd (congrArg Prod.fst heq.symm) hpi
          · exact hm
        unfold headerLoop
        by_cases hc : acc.1 < rowScore nk p.2
        · rw [if_pos hc]
          exact ih _ hmem2 (fun q hq h => hlt q (List.mem_cons_of_mem p hq) h)
            (fun q hq h => hidx q (List.mem_cons_of_mem p hq) h) hsc
        · rw [if_neg hc]
          exact ih _ hmem2 (fun q hq h => hlt q (List.mem_cons_of_mem p hq) h)
            (fun q hq h => hidx q (List.mem_cons_of_mem p hq) h) hacc

/-- **C4**: `find_header_row` scores the first 15 rows by the size of
the intersection of their normalized cells with the normalized keyword
set and returns the index of the unique maximum when that row carries
at least 4 keyword tokens (4 never exceeds `min(4, len(keywords))`);
when every candidate row scores below `min(4, len(keywords))` it
returns row 0. -/
theorem C4_find_header_row :
    (∀ (rows : List (List (Option String))) (keywords : List String)
      (i : ℕ) (row : List (Option String)),
      (i, row) ∈ (rows.take 15).enum →
      4 ≤ rowScore ((keywords.map pyNorm).dedup) row →
      (∀ p ∈ (rows.take 15).enum, p.1 ≠ i →
        rowScore ((keywords.map pyNorm).dedup) p.2 <
          rowScore ((keywords.map pyNorm).dedup) row) →
      find_header_row rows keywords 15 = i) ∧
    (∀ (rows : List (List (Option String))) (keywords : List String),
      (∀ row ∈ rows.take 15,
        rowScore ((keywords.map pyNorm).dedup) row < min 4 keywords.length) →
      find_header_row rows keywords 15 = 0) := by
  constructor
  · intro rows keywords i row hmem hs huniq
    have hidx : ∀ p ∈ (rows.take 15).enum, p.1 = i → p.2 = row := by
      intro p hp hpi
      have h1 := List.mk_mem_enum_iff_getElem?.mp (hpi ▸ hp : (i, p.2) ∈ (rows.take 15).enum)
      have h2 := List.mk_mem_enum_iff_getElem?.mp hmem
      rw [h1] at h2
      exact Option.some.inj h2
    have hpos : (0 : ℕ) < rowScore ((keywords.map pyNorm).dedup) row := by omega
    unfold find_header_row
    rw [headerLoop_finds _ i row _ (0, 0) hmem huniq hidx hpos]
    have hth : ¬(rowScore ((keywords.map pyNorm).dedup) row < min 4 keywords.length) := by
      have : min 4 keywords.length ≤ 4 := min_le_left _ _
      omega
    rw [if_neg hth]
  · intro rows keywords hall
    unfold find_header_row
    rcases hc : (rows.take 15).enum with _ | ⟨p, rest⟩
    · simp [headerLoop]
    · have hmem : p.2 ∈ rows.take 15 := by
        have hp : p ∈ (rows.take 15).enum := hc ▸ List.mem_cons_self p rest
        exact List.get?_mem (List.mem_enum_iff_get?.mp hp)
      have hpos : (0 : ℕ) < min 4 keywords.length := by
        have := hall p.2 hmem
        omega
      have hb : (headerLoop ((keywords.map pyNorm).dedup) (p :: rest) (0, 0)).1 <
          min 4 keywords.length := by
        rw [← hc]
        apply headerLoop_lt _ _ _ _ hpos
        intro q hq
        exact hall q.2 (List.get?_mem (List.mem_enum_iff_get?.mp hq))
      rw [if_pos hb]

/-- Witness for C4: a banner row followed by a true header row with
four keyword tokens; the detector returns index 1. -/
theorem C4_find_header_row_witness :
    find_header_row [[some "banner"], [some " LotNo", some "Grade", some "Price", some "Buyer"]]
      HEADER_KEYWORDS 15 = 1 :=
  C4_find_header_row.1
    [[some "banner"], [some " LotNo", some "Grade", some "Price", some "Buyer"]]
    HEADER_KEYWORDS 1 [some " LotNo", some "Grade", some "Price", some "Buyer"]
    (by decide) (by decide) (by decide)

/-! ## Persistence lemmas -/

/-- A uniqueness conflict is symmetric. -/
lemma keyConflict_comm (a b : NaturalKey) : keyConflict a b = keyConflict b a := by
  unfold keyConflict
  by_cases h1 : a.source_location = b.source_location <;>
    by_cases h2 : a.lot_number = b.lot_number <;>
    by_cases h3 : a.sale_number = b.sale_number <;>
    simp [h1, h2, h3, eq_comm]

/-- No stored pair of rows conflicts (what the `UNIQUE` constraint
guarantees about table contents). -/
def tableKeyUnique {α : Type} (key : α → NaturalKey) (t : List α) : Prop :=
  List.Pairwise (fun a b => keyConflict (key a) (key b) = false) t

/-- Appending a row that conflicts with nothing keeps the table
conflict-free. -/
lemma tableKeyUnique_append {α : Type} (key : α → NaturalKey) (t : List α) (r : α)
    (ht : tableKeyUnique key t) (hr : hasConflict key t r = false) :
    tableKeyUnique key (t ++ [r]) := by
  apply List.pairwise_append.mpr
  refine ⟨ht, List.pairwise_singleton _ _, ?_⟩
  intro a ha b hb
  rw [List.mem_singleton.mp hb]
  have := List.any_eq_false.mp hr a ha
  simpa using this

/-- The fallback path never stores a conflicting row. -/
lemma rowByRow_keyUnique {α : Type} (key : α → NaturalKey) :
    ∀ (df t : List α), tableKeyUnique key t →
      tableKeyUnique key (rowByRow key t df).2 := by
  intro df
  induction df with
  | nil => intro t ht; exact ht
  | cons r rs ih =>
      intro t ht
      unfold rowByRow
      rcases hc : hasConflict key t r with _ | _
      · simp only [Bool.false_eq_true, if_false]
        exact ih (t ++ [r]) (tableKeyUnique_append key t r ht hc)
      · simp only [if_true]
        exact ih t ht

/-- The bulk path never stores a conflicting row. -/
lemma tryBulk_keyUnique {α : Type} (key : α → NaturalKey) :
    ∀ (df t t' : List α), tableKeyUnique key t →
      tryBulk key t df = some t' → tableKeyUnique key t' := by
  intro df
  induction df with
  | nil =>
      intro t t' ht h
      cases h
      exact ht
  | cons r rs ih =>
      intro t t' ht h
      unfold tryBulk at h
      rcases hc : hasConflict key t r with _ | _ <;> rw [hc] at h
      · simp only [Bool.false_eq_true, if_false] at h
        exact ih (t ++ [r]) t' (tableKeyUnique_append key t r ht hc) h
      · simp at h

/-- The fallback path's count is exactly the number of rows added. -/
lemma rowByRow_length {α : Type} (key : α → NaturalKey) :
    ∀ (df t : List α),
      (rowByRow key t df).2.length = t.length + (rowByRow key t df).1 := by
  intro df
  induction df with
  | nil => intro t; simp [rowByRow]
  | cons r rs ih =>
      intro t
      unfold rowByRow
      rcases hc : hasConflict key t r with _ | _
      · simp only [Bool.false_eq_true, if_false]
        have := ih (t ++ [r])
        simp only [List.length_append, List.length_singleton] at this
        omega
      · simp only [if_true]
        exact ih t

/-- The bulk path appends the whole frame. -/
lemma tryBulk_length {α : Type} (key : α → NaturalKey) :
    ∀ (df t t' : List α), tryBulk key t df = some t' →
      t'.length = t.length + df.length := by
  intro df
  induction df with
  | nil =>
      intro t t' h
      cases h
      simp
  | cons r rs ih =>
      intro t t' h
      unfold tryBulk at h
      rcases hc : hasConflict key t r with _ | _ <;> rw [hc] at h
      · simp only [Bool.false_eq_true, if_false] at h
        have := ih (t ++ [r]) t' h
        simp only [List.length_append, List.length_singleton] at this
        simp only [List.length_cons]
        omega
      · simp at h

/-- `insert_data` on a failing bulk insert returns 0 and leaves the
table unchanged (the transaction rolls back). -/
lemma insert_data_failure {α : Type} (key : α → NaturalKey) (t df : List α) :
    insert_data key true t df = (0, t) := by
  unfold insert_data
  by_cases h : df.isEmpty <;> simp [h]

/-- The count returned by `insert_data` equals the number of rows the
table grew by. -/
lemma insert_data_length {α : Type} (key : α → NaturalKey) (fail : Bool)
    (t df : List α) :
    (insert_data key fail t df).2.length = t.length + (insert_data key fail t df).1 := by
  unfold insert_data
  by_cases h : df.isEmpty
  · simp [h]
  · simp only [h, Bool.false_eq_true, if_false]
    rcases hf : fail with _ | _
    · simp only [Bool.false_eq_true, if_false]
      rcases hb : tryBulk key t df with _ | t'
      · simp only []
        exact rowByRow_length key df t
      · simp only []
        simpa using tryBulk_length key df t t' hb
    · simp

/-- `insert_data` keeps the table conflict-free. -/
lemma insert_data_keyUnique {α : Type} (key : α → NaturalKey) (fail : Bool)
    (t df : List α) (ht : tableKeyUnique key t) :
    tableKeyUnique key (insert_data key fail t df).2 := by
  unfold insert_data
  by_cases h : df.isEmpty
  · simpa [h] using ht
  · simp only [h, Bool.false_eq_true, if_false]
    rcases hf : fail with _ | _
    · simp only [Bool.false_eq_true, if_false]
      rcases hb : tryBulk key t df with _ | t'
      · exact rowByRow_keyUnique key df t ht
      · exact tryBulk_keyUnique key df t t' ht hb
    · simpa using ht

/-! ## Claim C3: duplicate-tolerant insertion -/

/-- **C3 (amended)**: `insert_data` tries the bulk insert first and on
a uniqueness violation falls back to row-by-row insertion, silently
discarding each row that individually violates
`(source_location, sale_number, lot_number)` uniqueness, returning the
count of rows actually newly inserted (the stored table grows by
exactly that count, and stays free of conflicting pairs).  In
particular, inserting two records sharing a key with a **non-null**
`sale_number` stores exactly the first of them.  (With a null
`sale_number`, SQLite treats the rows as distinct — see the
counterexample.) -/
theorem C3_insert_dedup :
    (∀ {α : Type} (key : α → NaturalKey) (t : List α) (r1 r2 : α) (v : String),
      key r1 = key r2 → (key r1).sale_number = some v →
      hasConflict key t r1 = false →
      insert_data key false t [r1, r2] = (1, t ++ [r1])) ∧
    (∀ {α : Type} (key : α → NaturalKey) (fail : Bool) (t df : List α),
      (insert_data key fail t df).2.length = t.length + (insert_data key fail t df).1) ∧
    (∀ {α : Type} (key : α → NaturalKey) (fail : Bool) (t df : List α),
      tableKeyUnique key t → tableKeyUnique key (insert_data key fail t df).2) := by
  refine ⟨?_, fun key fail t df => insert_data_length key fail t df,
    fun key fail t df ht => insert_data_keyUnique key fail t df ht⟩
  intro α key t r1 r2 v hkey hsn hnc
  have hconf : keyConflict (key r1) (key r2) = true := by
    unfold keyConflict
    rw [← hkey, hsn]
    simp
  have hconf2 : hasConflict key (t ++ [r1]) r2 = true := by
    unfold hasConflict
    rw [List.any_append]
    simp only [List.any_cons, List.any_nil, Bool.or_false]
    rw [hconf]
    simp
  unfold insert_data
  simp only [List.isEmpty_cons, Bool.false_eq_true, if_false]
  have hbulk : tryBulk key t [r1, r2] = none := by
    unfold tryBulk
    rw [hnc]
    simp only [Bool.false_eq_true, if_false]
    unfold tryBulk
    rw [hconf2]
    simp
  rw [hbulk]
  unfold rowByRow
  rw [hnc]
  simp only [Bool.false_eq_true, if_false]
  unfold rowByRow
  rw [hconf2]
  simp [rowByRow]

/-- Witness for C3 (amended) at concrete offer rows sharing the key
`("Mombasa", some "35", "1")`. -/
theorem C3_insert_dedup_witness :
    insert_data offerKey false []
      [⟨"Mombasa", none, some "35", none, none, none, "1", none, none, none, none, "f", "t1"⟩,
       ⟨"Mombasa", none, some "35", none, none, none, "1", none, none, none, none, "f", "t2"⟩] =
      (1, [⟨"Mombasa", none, some "35", none, none, none, "1", none, none, none, none, "f", "t1"⟩]) :=
  C3_insert_dedup.1 offerKey []
    ⟨"Mombasa", none, some "35", none, none, none, "1", none, none, none, none, "f", "t1"⟩
    ⟨"Mombasa", none, some "35", none, none, none, "1", none, none, none, none, "f", "t2"⟩
    "35" (by decide) (by decide) (by decide)

/-- **C3 counterexample**: the claim as stated fails for a shared
**null** `sale_number`: SQLite's `UNIQUE` treats `NULL` as distinct
from every value, so no uniqueness violation fires and *both* rows are
stored — the bulk insert succeeds and the table ends with 2 rows where
the claim promises exactly one. -/
theorem C3_insert_dedup_counterexample :
    (insert_data offerKey false []
      [⟨"Mombasa", none, none, none, none, none, "1", none, none, none, none, "f", "t1"⟩,
       ⟨"Mombasa", none, none, none, none, none, "1", none, none, none, none, "f", "t2"⟩]).2.length =
      2 := by decide

/-! ## Ledger lemmas -/

/-- The ledger row for a fingerprint and data type, if any. -/
def ledgerEntry (log : List LogEntry) (fid dt : String) : Option LogEntry :=
  log.find? (fun e => e.file_identifier = fid && e.data_type = dt)

/-- After `log_processing_status`, the ledger row for the key is the
freshly written one. -/
lemma ledgerEntry_log_processing (log : List LogEntry) (fid dt : String)
    (n : ℕ) (s ts : String) :
    ledgerEntry (log_processing_status log fid dt n s ts) fid dt =
      some ⟨fid, dt, n, s, ts⟩ := by
  unfold ledgerEntry log_processing_status
  rw [List.find?_append]
  have h1 : (log.filter fun e => !(e.file_identifier = fid && e.data_type = dt)).find?
      (fun e => e.file_identifier = fid && e.data_type = dt) = none := by
    rw [List.find?_eq_none]
    intro x hx
    have h2 := List.of_mem_filter (p := fun (e : LogEntry) => !(e.file_identifier = fid && e.data_type = dt)) hx
    simp only [Bool.not_eq_true'] at h2
    simp [h2]
  rw [h1]
  simp

/-- `check_already_processed` after a fresh log write just tests the
written status. -/
lemma check_log_processing (log : List LogEntry) (fid dt : String)
    (n : ℕ) (s ts : String) :
    check_already_processed (log_processing_status log fid dt n s ts) fid dt =
      decide (s = "SUCCESS") := by
  unfold check_already_processed
  have h := ledgerEntry_log_processing log fid dt n s ts
  unfold ledgerEntry at h
  rw [h]

/-- A positive skip check names a stored `SUCCESS` row for the key. -/
lemma check_exists (log : List LogEntry) (fid dt : String)
    (h : check_already_processed log fid dt = true) :
    ∃ e ∈ log, (e.file_identifier = fid && e.data_type = dt &&
      e.status = "SUCCESS") = true := by
  unfold check_already_processed at h
  rcases hf : log.find? (fun e => e.file_identifier = fid && e.data_type = dt)
    with _ | e <;> rw [hf] at h
  · cases h
  · refine ⟨e, List.mem_of_find?_eq_some hf, ?_⟩
    have hp := List.find?_some hf
    simp only [Bool.and_eq_true, decide_eq_true_eq] at hp h ⊢
    exact ⟨hp, h⟩

/-- `log_processing_status` preserves the per-key uniqueness of the
ledger. -/
lemma logKeysUnique_log_processing (log : List LogEntry) (fid dt : String)
    (n : ℕ) (s ts : String) (h : logKeysUnique log) :
    logKeysUnique (log_processing_status log fid dt n s ts) := by
  unfold logKeysUnique log_processing_status
  apply List.pairwise_append.mpr
  refine ⟨List.Pairwise.filter _ h, List.pairwise_singleton _ _, ?_⟩
  intro a ha b hb
  rw [List.mem_singleton.mp hb]
  have h2 := List.of_mem_filter
    (p := fun (e : LogEntry) => !(e.file_identifier = fid && e.data_type = dt)) ha
  simp only [Bool.not_eq_true', Bool.and_eq_false_iff, decide_eq_false_iff_not] at h2
  intro hcontra
  rcases h2 with h2 | h2
  · exact h2 hcontra.1
  · exact h2 hcontra.2

/-- A unique-keyed ledger has at most one row for a key. -/
lemma filter_key_length_le_one (log : List LogEntry) (fid dt : String)
    (h : logKeysUnique log) :
    (log.filter fun e => e.file_identifier = fid && e.data_type = dt).length ≤ 1 := by
  have hp : List.Pairwise
      (fun a b : LogEntry => ¬(a.file_identifier = b.file_identifier ∧ a.data_type = b.data_type))
      (log.filter fun e => e.file_identifier = fid && e.data_type = dt) :=
    List.Pairwise.filter _ h
  rcases hf : log.filter (fun e => e.file_identifier = fid && e.data_type = dt)
    with _ | ⟨a, _ | ⟨b, rest⟩⟩
  · rw [hf]
    simp
  · rw [hf]
    simp
  · exfalso
    rw [hf] at hp
    have hrel := (List.pairwise_cons.mp hp).1 b (List.mem_cons_self b rest)
    have ha : a ∈ log.filter (fun e => e.file_identifier = fid && e.data_type = dt) := by
      rw [hf]; exact List.mem_cons_self _ _
    have hb : b ∈ log.filter (fun e => e.file_identifier = fid && e.data_type = dt) := by
      rw [hf]; exact List.mem_cons_of_mem _ (List.mem_cons_self _ _)
    have hpa := List.of_mem_filter (p := fun (e : LogEntry) => e.file_identifier = fid && e.data_type = dt) ha
    have hpb := List.of_mem_filter (p := fun (e : LogEntry) => e.file_identifier = fid && e.data_type = dt) hb
    simp only [Bool.and_eq_true, decide_eq_true_eq] at hpa hpb
    exact hrel ⟨hpa.1.trans hpb.1.symm, hpa.2.trans hpb.2.symm⟩

/-! ## Orchestrator lemmas -/

/-- A nonempty list is not `isEmpty`. -/
lemma isEmpty_eq_false_of_ne_nil {α : Type} {l : List α} (h : l ≠ []) :
    l.isEmpty = false := by
  cases l with
  | nil => exact absurd rfl h
  | cons a as => rfl

/-- For an `OFFER`/`SALE` file that is not skipped and not empty, the
orchestrator runs the lot-insert body. -/
lemma process_eq_runLotInsert (fid dt : String) (rows : List RawLotRow)
    (sn sd : Option String) (ts : String) (fo fs : Bool) (st : DBState)
    (hchk : check_already_processed st.log fid dt = false)
    (hdt : dt = "OFFER" ∨ dt = "SALE") (hrows : rows ≠ []) :
    process_structured_data fid dt rows sn sd ts fo fs st =
      runLotInsert fid dt rows sn sd ts fo fs st := by
  rcases hdt with h | h <;> subst h <;>
    simp [process_structured_data, hchk, isEmpty_eq_false_of_ne_nil hrows]

/-- For a `SUMMARY` file that is not skipped and not empty, the
orchestrator inserts nothing and logs `NO_NEW_DATA`. -/
lemma process_eq_summary (fid : String) (rows : List RawLotRow)
    (sn sd : Option String) (ts : String) (fo fs : Bool) (st : DBState)
    (hchk : check_already_processed st.log fid "SUMMARY" = false)
    (hrows : rows ≠ []) :
    process_structured_data fid "SUMMARY" rows sn sd ts fo fs st =
      { st with log := log_processing_status st.log fid "SUMMARY" 0 "NO_NEW_DATA" ts } := by
  simp [process_structured_data, hchk, isEmpty_eq_false_of_ne_nil hrows]

/-- The guarded offers insert with a failing storage layer changes
nothing and counts zero. -/
lemma insOffers_failure (table df : List OfferRow) :
    insOffers true table df = (0, table) := by
  unfold insOffers
  by_cases h : df.isEmpty <;> simp [h, insert_data_failure]

/-- The guarded sales insert with a failing storage layer changes
nothing and counts zero. -/
lemma insSales_failure (table df : List SaleRow) :
    insSales true table df = (0, table) := by
  unfold insSales
  by_cases h : df.isEmpty <;> simp [h, insert_data_failure]

/-- The orchestrator preserves the ledger's per-key uniqueness. -/
lemma process_logKeysUnique (fid dt : String) (rows : List RawLotRow)
    (sn sd : Option String) (ts : String) (fo fs : Bool) (st : DBState)
    (h : logKeysUnique st.log) :
    logKeysUnique (process_structured_data fid dt rows sn sd ts fo fs st).log := by
  unfold process_structured_data runLotInsert
  split_ifs <;>
    first
      | exact h
      | exact logKeysUnique_log_processing _ _ _ _ _ _ h

/-! ## Claim C9: non-uniqueness storage errors are absorbed -/

/-- **C9**: `insert_data` never raises: a non-uniqueness storage error
during the bulk insert is caught and reported as zero rows inserted
with the table unchanged; consequently a run whose inserts all fail
this way logs `NO_NEW_DATA` (not `FAILURE`), and if the offers batch
succeeded with new rows while the sales batch failed, the run even
logs `SUCCESS`. -/
theorem C9_storage_error_absorbed :
    (∀ {α : Type} (key : α → NaturalKey) (t df : List α),
      insert_data key true t df = (0, t)) ∧
    (∀ (st : DBState) (fid dt : String) (rows : List RawLotRow)
      (sn sd : Option String) (ts : String),
      check_already_processed st.log fid dt = false →
      (dt = "OFFER" ∨ dt = "SALE") → rows ≠ [] →
      (process_structured_data fid dt rows sn sd ts true true st).offers = st.offers ∧
      (process_structured_data fid dt rows sn sd ts true true st).sales = st.sales ∧
      ledgerEntry (process_structured_data fid dt rows sn sd ts true true st).log fid dt =
        some ⟨fid, dt, 0, "NO_NEW_DATA", ts⟩) ∧
    (∀ (st : DBState) (fid dt : String) (rows : List RawLotRow)
      (sn sd : Option String) (ts : String),
      check_already_processed st.log fid dt = false →
      (dt = "OFFER" ∨ dt = "SALE") → rows ≠ [] →
      0 < (insOffers false st.offers (offersFrame rows sn sd fid ts)).1 →
      ledgerEntry (process_structured_data fid dt rows sn sd ts false true st).log fid dt =
        some ⟨fid, dt, (insOffers false st.offers (offersFrame rows sn sd fid ts)).1,
          "SUCCESS", ts⟩) := by
  refine ⟨fun key t df => insert_data_failure key t df, ?_, ?_⟩
  · intro st fid dt rows sn sd ts hchk hdt hrows
    rw [process_eq_runLotInsert fid dt rows sn sd ts true true st hchk hdt hrows]
    unfold runLotInsert
    rw [insOffers_failure, insSales_failure]
    simp only [Nat.add_zero, Nat.lt_irrefl, if_false]
    exact ⟨trivial, trivial, ledgerEntry_log_processing _ _ _ _ _ _⟩
  · intro st fid dt rows sn sd ts hchk hdt hrows hoff
    rw [process_eq_runLotInsert fid dt rows sn sd ts false true st hchk hdt hrows]
    unfold runLotInsert
    rw [insSales_failure]
    simp only [Nat.add_zero]
    rw [if_pos hoff]
    exact ledgerEntry_log_processing _ _ _ _ _ _

/-- Witness for C9: a one-lot `SALE` file against an empty store with
both bulk inserts failing ends as `NO_NEW_DATA` with empty tables. -/
theorem C9_storage_error_absorbed_witness :
    (process_structured_data "f|1" "SALE"
      [⟨some "BRK", some "FARM X", some "PEKOE", some "L1", none,
        some "1000", some "10", some "2.50", none, some "BUY"⟩]
      (some "42") (some "2025-10-10") "ts" true true ⟨[], [], []⟩).offers = [] ∧
    (process_structured_data "f|1" "SALE"
      [⟨some "BRK", some "FARM X", some "PEKOE", some "L1", none,
        some "1000", some "10", some "2.50", none, some "BUY"⟩]
      (some "42") (some "2025-10-10") "ts" true true ⟨[], [], []⟩).sales = [] ∧
    ledgerEntry (process_structured_data "f|1" "SALE"
      [⟨some "BRK", some "FARM X", some "PEKOE", some "L1", none,
        some "1000", some "10", some "2.50", none, some "BUY"⟩]
      (some "42") (some "2025-10-10") "ts" true true ⟨[], [], []⟩).log "f|1" "SALE" =
      some ⟨"f|1", "SALE", 0, "NO_NEW_DATA", "ts"⟩ :=
  C9_storage_error_absorbed.2.1 ⟨[], [], []⟩ "f|1" "SALE"
    [⟨some "BRK", some "FARM X", some "PEKOE", some "L1", none,
      some "1000", some "10", some "2.50", none, some "BUY"⟩]
    (some "42") (some "2025-10-10") "ts" (by decide) (Or.inr rfl) (by decide)

/-! ## Claim C10: SUCCESS iff rows were inserted -/

/-- **C10**: for a non-empty file that completes processing, the
logged status is `SUCCESS` exactly when at least one row was newly
inserted and `NO_NEW_DATA` otherwise (never anything else on this
path); and since the skip check demands exactly `SUCCESS`, a file
logged `NO_NEW_DATA` is not skipped on the next run. -/
theorem C10_success_iff_inserted (st : DBState) (fid dt : String)
    (rows : List RawLotRow) (sn sd : Option String) (ts : String) (fo fs : Bool)
    (hchk : check_already_processed st.log fid dt = false)
    (hdt : dt = "OFFER" ∨ dt = "SALE" ∨ dt = "SUMMARY") (hrows : rows ≠ []) :
    ∃ e : LogEntry,
      ledgerEntry (process_structured_data fid dt rows sn sd ts fo fs st).log fid dt =
        some e ∧
      (e.status = "SUCCESS" ↔ 0 < e.records_inserted) ∧
      (e.status = "SUCCESS" ∨ e.status = "NO_NEW_DATA") ∧
      (e.status = "NO_NEW_DATA" →
        check_already_processed
          (process_structured_data fid dt rows sn sd ts fo fs st).log fid dt = false) := by
  by_cases hsum : dt = "SUMMARY"
  · subst hsum
    rw [process_eq_summary fid rows sn sd ts fo fs st hchk hrows]
    refine ⟨⟨fid, "SUMMARY", 0, "NO_NEW_DATA", ts⟩,
      ledgerEntry_log_processing _ _ _ _ _ _, ?_, ?_, ?_⟩
    · simp
    · simp
    · intro _
      rw [check_log_processing]
      simp
  · have hor : dt = "OFFER" ∨ dt = "SALE" := by
      rcases hdt with h | h | h
      exacts [Or.inl h, Or.inr h, absurd h hsum]
    rw [process_eq_runLotInsert fid dt rows sn sd ts fo fs st hchk hor hrows]
    unfold runLotInsert
    set k := (insOffers fo st.offers (offersFrame rows sn sd fid ts)).1 +
      (insSales fs st.sales (salesFrame rows sn sd fid ts)).1 with hk
    refine ⟨⟨fid, dt, k, if 0 < k then "SUCCESS" else "NO_NEW_DATA", ts⟩,
      ledgerEntry_log_processing _ _ _ _ _ _, ?_, ?_, ?_⟩
    · by_cases hp : 0 < k <;> simp [hp]
    · by_cases hp : 0 < k <;> simp [hp]
    · intro hst
      rw [check_log_processing]
      by_cases hp : 0 < k
      · rw [if_pos hp] at hst
        simp at hst
      · rw [if_neg hp]
        decide

/-- Witness for C10: a one-lot `SALE` file against an empty store with
healthy storage; the run's ledger row satisfies the status contract. -/
theorem C10_success_iff_inserted_witness :
    ∃ e : LogEntry,
      ledgerEntry (process_structured_data "f|1" "SALE"
        [⟨some "BRK", some "FARM X", some "PEKOE", some "L1", none,
          some "1000", some "10", some "2.50", none, some "BUY"⟩]
        (some "42") (some "2025-10-10") "ts" false false ⟨[], [], []⟩).log "f|1" "SALE" =
        some e ∧
      (e.status = "SUCCESS" ↔ 0 < e.records_inserted) ∧
      (e.status = "SUCCESS" ∨ e.status = "NO_NEW_DATA") ∧
      (e.status = "NO_NEW_DATA" →
        check_already_processed
          (process_structured_data "f|1" "SALE"
            [⟨some "BRK", some "FARM X", some "PEKOE", some "L1", none,
              some "1000", some "10", some "2.50", none, some "BUY"⟩]
            (some "42") (some "2025-10-10") "ts" false false ⟨[], [], []⟩).log "f|1" "SALE" =
          false) :=
  C10_success_iff_inserted ⟨[], [], []⟩ "f|1" "SALE"
    [⟨some "BRK", some "FARM X", some "PEKOE", some "L1", none,
      some "1000", some "10", some "2.50", none, some "BUY"⟩]
    (some "42") (some "2025-10-10") "ts" false false
    (by decide) (Or.inr (Or.inl rfl)) (by decide)

/-! ## Claim C1: ledger-driven skip and idempotence -/

/-- Filtering by a conjunction keeps at most as many rows as filtering
by its first conjunct. -/
lemma length_filter_and_le (l : List LogEntry) (p q : LogEntry → Bool) :
    (l.filter fun e => p e && q e).length ≤ (l.filter p).length := by
  induction l with
  | nil => simp
  | cons a as ih =>
      simp only [List.filter]
      rcases hpa : p a with _ | _ <;> rcases hqa : q a with _ | _ <;>
        simp [hpa, hqa] <;> omega

/-- If the skip check fires, the orchestrator is the identity. -/
lemma process_skip (fid dt : String) (rows : List RawLotRow)
    (sn sd : Option String) (ts : String) (fo fs : Bool) (st : DBState)
    (h : check_already_processed st.log fid dt = true) :
    process_structured_data fid dt rows sn sd ts fo fs st = st := by
  unfold process_structured_data
  rw [if_pos h]

/-- **C1**: if the ledger already holds a `SUCCESS` entry for the
file's exact fingerprint and data type, `process_structured_data`
changes nothing (no insertion into `auction_offers`/`auction_sales`,
no ledger write); consequently, once a run leaves the ledger with a
`SUCCESS` entry for the fingerprint, re-ingesting the same unmodified
file (same fingerprint) is the identity on the store — zero additional
rows — and the ledger holds exactly one `SUCCESS` entry for that
fingerprint and data type. -/
theorem C1_skip_and_idempotence (st : DBState) (fid dt : String)
    (rows rows2 : List RawLotRow) (sn sd sn2 sd2 : Option String)
    (ts ts2 : String) (fo fs fo2 fs2 : Bool)
    (hlog : logKeysUnique st.log) :
    (check_already_processed st.log fid dt = true →
      process_structured_data fid dt rows sn sd ts fo fs st = st) ∧
    (check_already_processed
        (process_structured_data fid dt rows sn sd ts fo fs st).log fid dt = true →
      process_structured_data fid dt rows2 sn2 sd2 ts2 fo2 fs2
          (process_structured_data fid dt rows sn sd ts fo fs st) =
        process_structured_data fid dt rows sn sd ts fo fs st ∧
      ((process_structured_data fid dt rows sn sd ts fo fs st).log.filter
          (fun e => e.file_identifier = fid && e.data_type = dt &&
            e.status = "SUCCESS")).length = 1) := by
  constructor
  · intro h
    exact process_skip fid dt rows sn sd ts fo fs st h
  · intro h
    constructor
    · exact process_skip fid dt rows2 sn2 sd2 ts2 fo2 fs2 _ h
    · have hlog2 : logKeysUnique (process_structured_data fid dt rows sn sd ts fo fs st).log :=
        process_logKeysUnique fid dt rows sn sd ts fo fs st hlog
      obtain ⟨e, hmem, hpred⟩ := check_exists _ fid dt h
      have hle := filter_key_length_le_one
        (process_structured_data fid dt rows sn sd ts fo fs st).log fid dt hlog2
      have hmono : ((process_structured_data fid dt rows sn sd ts fo fs st).log.filter
          (fun e => e.file_identifier = fid && e.data_type = dt &&
            e.status = "SUCCESS")).length ≤
          ((process_structured_data fid dt rows sn sd ts fo fs st).log.filter
            (fun e => e.file_identifier = fid && e.data_type = dt)).length :=
        length_filter_and_le _ _ _
      have hmem2 : e ∈ (process_structured_data fid dt rows sn sd ts fo fs st).log.filter
          (fun e => e.file_identifier = fid && e.data_type = dt &&
            e.status = "SUCCESS") :=
        List.mem_filter.mpr ⟨hmem, hpred⟩
      have hpos : 0 < ((process_structured_data fid dt rows sn sd ts fo fs st).log.filter
          (fun e => e.file_identifier = fid && e.data_type = dt &&
            e.status = "SUCCESS")).length :=
        List.length_pos.mpr (List.ne_nil_of_mem hmem2)
      omega

/-- Witness for C1: a store whose ledger already records `SUCCESS` for
the fingerprint; processing skips, and the `SUCCESS` entry stays
unique. -/
theorem C1_skip_and_idempotence_witness :
    (process_structured_data "f|99.0" "SALE" [] none none "ts2" false false
        ⟨[⟨"f|99.0", "SALE", 5, "SUCCESS", "ts1"⟩], [], []⟩ =
      ⟨[⟨"f|99.0", "SALE", 5, "SUCCESS", "ts1"⟩], [], []⟩) ∧
    (([⟨"f|99.0", "SALE", 5, "SUCCESS", "ts1"⟩] : List LogEntry).filter
        (fun e => e.file_identifier = "f|99.0" && e.data_type = "SALE" &&
          e.status = "SUCCESS")).length = 1 := by
  have h := C1_skip_and_idempotence
    ⟨[⟨"f|99.0", "SALE", 5, "SUCCESS", "ts1"⟩], [], []⟩ "f|99.0" "SALE"
    [] [] none none none none "ts2" "ts3" false false false false
    (List.pairwise_singleton _ _)
  have h1 := h.1 (by decide)
  have h2 := (h.2 (by rw [h1]; decide)).2
  rw [h1] at h2
  exact ⟨h1, h2⟩

/-! ## Claim C5: column mapping -/

/-- In a list with injective images (`Nodup` after `map`), equal
images mean equal members. -/
lemma nodup_map_eq {α β : Type} (f : α → β) :
    ∀ (l : List α), (l.map f).Nodup →
      ∀ a ∈ l, ∀ b ∈ l, f a = f b → a = b := by
  intro l
  induction l with
  | nil =>
      intro _ a ha
      cases ha
  | cons c cs ih =>
      intro h a ha b hb hab
      simp only [List.map_cons, List.nodup_cons] at h
      rcases List.mem_cons.mp ha with ha1 | ha1 <;>
        rcases List.mem_cons.mp hb with hb1 | hb1
      · rw [ha1, hb1]
      · subst ha1
        exact absurd (hab ▸ List.mem_map_of_mem f hb1) h.1
      · subst hb1
        exact absurd (hab ▸ List.mem_map_of_mem f ha1) h.1
      · exact ih h.2 a ha1 b hb1 hab

/-- `contains` on string lists is membership. -/
lemma contains_iff_mem_str {l : List String} {a : String} :
    l.contains a = true ↔ a ∈ l := by
  simp [List.contains]

/-- What ends up in `rename_dict`: `(col, f)` is recorded exactly when
`col` is the first column name whose alias lookup yields `f` (beyond
what the accumulator already holds). -/
lemma buildRenameDictGo_mem (cmap : ColumnMap) :
    ∀ (cols : List String) (rd : List (String × String)) (col f : String),
      ((col, f) ∈ buildRenameDictGo cmap cols rd ↔
        ((col, f) ∈ rd ∨ (f ∉ rd.map Prod.snd ∧
          cols.find? (fun c => aliasMatch cmap c = some f) = some col))) := by
  intro cols
  induction cols with
  | nil =>
      intro rd col f
      simp [buildRenameDictGo]
  | cons c cs ih =>
      intro rd col f
      unfold buildRenameDictGo
      rcases hm : aliasMatch cmap c with _ | g
      · simp only []
        rw [ih rd col f]
        have hfc : List.find? (fun x => decide (aliasMatch cmap x = some f)) (c :: cs) =
            List.find? (fun x => decide (aliasMatch cmap x = some f)) cs :=
          List.find?_cons_of_neg _ (by simp [hm])
        rw [hfc]
      · simp only []
        by_cases hfg : f = g
        · subst hfg
          have hfc : List.find? (fun x => decide (aliasMatch cmap x = some f)) (c :: cs) =
              some c :=
            List.find?_cons_of_pos _ (by simp [hm])
          rw [hfc]
          rcases hg : (rd.map Prod.snd).contains f with _ | _
          · simp only [Bool.false_eq_true, if_false]
            rw [ih (rd ++ [(c, f)]) col f]
            have hmemf : f ∉ rd.map Prod.snd := fun hmem =>
              by rw [contains_iff_mem_str.mpr hmem] at hg; cases hg
            constructor
            · intro h
              rcases h with h | ⟨hnot, _⟩
              · rcases List.mem_append.mp h with h | h
                · exact Or.inl h
                · refine Or.inr ⟨hmemf, ?_⟩
                  have hcc : col = c := (Prod.ext_iff.mp (List.mem_singleton.mp h)).1
                  rw [hcc]
              · exfalso
                apply hnot
                rw [List.map_append]
                refine List.mem_append.mpr (Or.inr ?_)
                simp
            · intro h
              rcases h with h | ⟨-, hcol⟩
              · exact Or.inl (List.mem_append.mpr (Or.inl h))
              · refine Or.inl (List.mem_append.mpr (Or.inr ?_))
                rw [Option.some.inj hcol]
                exact List.mem_singleton.mpr rfl
          · simp only [if_true]
            rw [ih rd col f]
            have hmemf : f ∈ rd.map Prod.snd := contains_iff_mem_str.mp hg
            constructor
            · intro h
              rcases h with h | ⟨hnot, -⟩
              · exact Or.inl h
              · exact absurd hmemf hnot
            · intro h
              rcases h with h | ⟨hnot, -⟩
              · exact Or.inl h
              · exact absurd hmemf hnot
        · have hfc : List.find? (fun x => decide (aliasMatch cmap x = some f)) (c :: cs) =
              List.find? (fun x => decide (aliasMatch cmap x = some f)) cs :=
            List.find?_cons_of_neg _ (by simp [hm]; exact fun hh => hfg hh.symm)
          rw [hfc]
          rcases hg : (rd.map Prod.snd).contains g with _ | _
          · simp only [Bool.false_eq_true, if_false]
            rw [ih (rd ++ [(c, g)]) col f]
            have h1 : ((col, f) ∈ rd ++ [(c, g)]) ↔ (col, f) ∈ rd := by
              rw [List.mem_append]
              constructor
              · intro h
                rcases h with h | h
                · exact h
                · exact absurd (Prod.ext_iff.mp (List.mem_singleton.mp h)).2 hfg
              · exact Or.inl
            have h2 : (f ∉ (rd ++ [(c, g)]).map Prod.snd) ↔ f ∉ rd.map Prod.snd := by
              rw [List.map_append]
              simp only [List.mem_append, List.map_cons, List.map_nil,
                List.mem_singleton]
              constructor
              · intro h hmem
                exact h (Or.inl hmem)
              · intro h hmem
                rcases hmem with hmem | hmem
                · exact h hmem
                · exact hfg hmem
            rw [h1, h2]
          · simp only [if_true]
            exact ih rd col f

/-- `rename_dict` membership, from the empty start. -/
lemma buildRenameDict_mem (cmap : ColumnMap) (cols : List String) (col f : String) :
    (col, f) ∈ buildRenameDict cols cmap ↔
      cols.find? (fun c => aliasMatch cmap c = some f) = some col := by
  unfold buildRenameDict
  rw [buildRenameDictGo_mem]
  simp

/-- A recorded pair certifies the column's own alias lookup. -/
lemma buildRenameDict_aliasMatch (cmap : ColumnMap) (cols : List String)
    (col f : String) (h : (col, f) ∈ buildRenameDict cols cmap) :
    aliasMatch cmap col = some f := by
  have h2 := (buildRenameDict_mem cmap cols col f).mp h
  have h3 := List.find?_some h2
  simpa using h3

/-- Looking up an association list by key, when each key determines
its value. -/
lemma find?_fst_of_mem :
    ∀ (l : List (String × String)) (col f : String), (col, f) ∈ l →
      (∀ g, (col, g) ∈ l → g = f) →
      l.find? (fun p => p.1 = col) = some (col, f) := by
  intro l
  induction l with
  | nil =>
      intro col f h
      cases h
  | cons p ps ih =>
      intro col f h huniq
      by_cases hp : p.1 = col
      · have hfc : List.find? (fun q => decide (q.1 = col)) (p :: ps) = some p :=
          List.find?_cons_of_pos _ (by simp [hp])
        rw [hfc]
        have hpm : (col, p.2) ∈ p :: ps := by
          have : (col, p.2) = p := by
            rw [← hp]
          rw [this]
          exact List.mem_cons_self p ps
        have := huniq p.2 hpm
        have hpe : p = (col, f) := by
          rcases p with ⟨p1, p2⟩
          simp only at hp this
          rw [hp, this]
        rw [hpe]
      · have hfc : List.find? (fun q => decide (q.1 = col)) (p :: ps) =
            List.find? (fun q => decide (q.1 = col)) ps :=
          List.find?_cons_of_neg _ (by simp [hp])
        rw [hfc]
        have hmem : (col, f) ∈ ps := by
          rcases List.mem_cons.mp h with h1 | h1
          · exact absurd (congrArg Prod.fst h1.symm) hp
          · exact h1
        exact ih col f hmem fun g hg => huniq g (List.mem_cons_of_mem p hg)

/-- Looking up a key that holds no association. -/
lemma find?_fst_of_not_mem (l : List (String × String)) (col : String)
    (h : ∀ f, (col, f) ∉ l) :
    l.find? (fun p => p.1 = col) = none := by
  rw [List.find?_eq_none]
  intro p hp hpc
  apply h p.2
  have : p = (col, p.2) := by
    rcases p with ⟨p1, p2⟩
    simp only [decide_eq_true_eq] at hpc
    rw [hpc]
  rw [← this]
  exact hp

/-- Under pairwise-disjoint normalized aliases and distinct canonical
names, a column's alias lookup returns a field exactly when it hits
that field's own alias list. -/
lemma aliasMatch_eq_some_iff (cmap : ColumnMap)
    (hdisj : ∀ f ∈ cmap, ∀ g ∈ cmap, f.1 ≠ g.1 →
      ∀ a ∈ f.2, ∀ b ∈ g.2, pyNorm a ≠ pyNorm b)
    (hkeys : (cmap.map Prod.fst).Nodup)
    {f : String × List String} (hf : f ∈ cmap) (col : String) :
    aliasMatch cmap col = some f.1 ↔ aliasHit f.2 col = true := by
  unfold aliasMatch
  constructor
  · intro h
    rcases hfind : cmap.find? (fun g => aliasHit g.2 col) with _ | g <;>
      rw [hfind] at h
    · cases h
    · have hg1 : g.1 = f.1 := Option.some.inj h
      have hgmem := List.mem_of_find?_eq_some hfind
      have hgf := nodup_map_eq Prod.fst cmap hkeys g hgmem f hf hg1
      rw [← hgf]
      exact List.find?_some (p := fun g : String × List String => aliasHit g.2 col) hfind
  · intro h
    rcases hfind : cmap.find? (fun g => aliasHit g.2 col) with _ | g
    · exfalso
      have := List.find?_eq_none.mp hfind f hf
      simp [h] at this
    · rw [hfind]
      have hgmem := List.mem_of_find?_eq_some hfind
      have hgp : aliasHit g.2 col = true :=
        List.find?_some (p := fun g : String × List String => aliasHit g.2 col) hfind
      simp only [Option.map_some']
      by_cases hne : g.1 = f.1
      · rw [hne]
      · exfalso
        obtain ⟨a, ha, hpa⟩ : ∃ a ∈ g.2, pyNorm a = pyNorm col := by
          have := contains_iff_mem_str.mp hgp
          exact List.mem_map.mp this
        obtain ⟨b, hb, hpb⟩ : ∃ b ∈ f.2, pyNorm b = pyNorm col := by
          have := contains_iff_mem_str.mp h
          exact List.mem_map.mp this
        exact hdisj g hgmem f hf hne a ha b hb (hpa.trans hpb.symm)

/-- On a duplicate-free list, filtering for one member yields exactly
that member. -/
lemma filter_eq_singleton_of_nodup {α : Type} [DecidableEq α] :
    ∀ (l : List α), l.Nodup → ∀ a ∈ l, l.filter (fun x => x = a) = [a] := by
  intro l
  induction l with
  | nil =>
      intro _ a ha
      cases ha
  | cons c cs ih =>
      intro hnd a ha
      rcases List.nodup_cons.mp hnd with ⟨hc, hnd2⟩
      rcases List.mem_cons.mp ha with h1 | h1
      · subst h1
        have hfp : List.filter (fun x => decide (x = a)) (a :: cs) =
            a :: List.filter (fun x => decide (x = a)) cs :=
          List.filter_cons_of_pos (by simp)
        rw [hfp]
        have hnil : cs.filter (fun x => x = a) = [] := by
          rw [List.filter_eq_nil]
          intro x hx
          simp only [decide_eq_true_eq]
          intro hxc
          exact hc (hxc ▸ hx)
        rw [hnil]
      · have hca : ¬(c = a) := fun hq => hc (hq ▸ h1)
        have hfn : List.filter (fun x => decide (x = a)) (c :: cs) =
            List.filter (fun x => decide (x = a)) cs :=
          List.filter_cons_of_neg (by simpa using hca)
        rw [hfn]
        exact ih hnd2 a h1

/-- A flat map of singletons is a map. -/
lemma flatMap_eq_map_of_singleton {α β : Type} (g : α → List β) (h : α → β) :
    ∀ (l : List α), (∀ x ∈ l, g x = [h x]) → l.flatMap g = l.map h := by
  intro l
  induction l with
  | nil => intro _; rfl
  | cons c cs ih =>
      intro hs
      rw [List.flatMap_cons, List.map_cons, hs c (List.mem_cons_self c cs),
        ih fun x hx => hs x (List.mem_cons_of_mem c hx)]
      rfl

/-- The renamed value of a column is its original cell list. -/
lemma renameOne_snd (rd : List (String × String)) (c : Column) :
    (renameOne rd c).2 = c.2 := by
  unfold renameOne
  rcases h : rd.find? (fun p => p.1 = c.1) with _ | p <;> rw [h]

/-- Transfer of the rename-dictionary search from column names to
columns. -/
lemma cols_find?_transfer (cmap : ColumnMap) (df : List Column)
    (hdisj : ∀ f ∈ cmap, ∀ g ∈ cmap, f.1 ≠ g.1 →
      ∀ a ∈ f.2, ∀ b ∈ g.2, pyNorm a ≠ pyNorm b)
    (hkeys : (cmap.map Prod.fst).Nodup)
    {f : String × List String} (hf : f ∈ cmap) :
    (df.map Prod.fst).find? (fun nm => aliasMatch cmap nm = some f.1) =
      (df.find? (fun c => aliasHit f.2 c.1)).map Prod.fst := by
  rw [List.find?_map]
  have hfun : ((fun nm => decide (aliasMatch cmap nm = some f.1)) ∘ Prod.fst) =
      (fun c : Column => aliasHit f.2 c.1) := by
    funext c
    simp only [Function.comp_apply]
    by_cases hA : aliasMatch cmap c.1 = some f.1
    · rw [(aliasMatch_eq_some_iff cmap hdisj hkeys hf c.1).mp hA]
      simp [hA]
    · have hB : aliasHit f.2 c.1 ≠ true := fun hb =>
        hA ((aliasMatch_eq_some_iff cmap hdisj hkeys hf c.1).mpr hb)
      rcases hx : aliasHit f.2 c.1 with _ | _
      · simp [hA]
      · exact absurd hx hB
  rw [hfun]

/-- Which columns end up carrying a canonical field's name after the
rename: exactly the first column hitting that field's aliases. -/
lemma renameOne_name_eq_iff (cmap : ColumnMap) (df : List Column)
    (hdisj : ∀ f ∈ cmap, ∀ g ∈ cmap, f.1 ≠ g.1 →
      ∀ a ∈ f.2, ∀ b ∈ g.2, pyNorm a ≠ pyNorm b)
    (hkeys : (cmap.map Prod.fst).Nodup)
    (hnames : ∀ c ∈ df, c.1 ∉ cmap.map Prod.fst)
    {f : String × List String} (hf : f ∈ cmap)
    (c : Column) (hc : c ∈ df) :
    ((renameOne (buildRenameDict (df.map Prod.fst) cmap) c).1 = f.1) ↔
      ((df.find? (fun c => aliasHit f.2 c.1)).map Prod.fst = some c.1) := by
  have htrans := cols_find?_transfer cmap df hdisj hkeys hf
  unfold renameOne
  rcases hl : (buildRenameDict (df.map Prod.fst) cmap).find? (fun p => p.1 = c.1)
    with _ | p
  · rw [hl]
    constructor
    · intro h
      have hcf : c.1 = f.1 := h
      exfalso
      apply hnames c hc
      rw [hcf]
      exact List.mem_map_of_mem Prod.fst hf
    · intro h
      exfalso
      have hmem : (c.1, f.1) ∈ buildRenameDict (df.map Prod.fst) cmap := by
        rw [buildRenameDict_mem]
        rw [htrans, h]
      have := List.find?_eq_none.mp hl (c.1, f.1) hmem
      simp at this
  · rw [hl]
    have hpmem := List.mem_of_find?_eq_some hl
    have hp1 : p.1 = c.1 := by
      have := List.find?_some hl
      simpa using this
    have hentry : (c.1, p.2) ∈ buildRenameDict (df.map Prod.fst) cmap := by
      have hpe : p = (c.1, p.2) := by
        rcases p with ⟨p1, p2⟩
        simp only at hp1
        rw [hp1]
      rw [← hpe]
      exact hpmem
    constructor
    · intro h
      have hpf : p.2 = f.1 := h
      have hentry2 : (c.1, f.1) ∈ buildRenameDict (df.map Prod.fst) cmap :=
        hpf ▸ hentry
      rw [buildRenameDict_mem] at hentry2
      rw [htrans] at hentry2
      exact hentry2
    · intro h
      have hentry2 : (c.1, f.1) ∈ buildRenameDict (df.map Prod.fst) cmap := by
        rw [buildRenameDict_mem, htrans, h]
      have h1 := buildRenameDict_aliasMatch cmap (df.map Prod.fst) c.1 p.2 hentry
      have h2 := buildRenameDict_aliasMatch cmap (df.map Prod.fst) c.1 f.1 hentry2
      rw [h1] at h2
      exact Option.some.inj h2

/-- The renamed frame holds exactly one column named `f.1` — the first
column hitting `f`'s aliases — or none at all. -/
lemma renamed_filter (cmap : ColumnMap) (df : List Column)
    (hdisj : ∀ f ∈ cmap, ∀ g ∈ cmap, f.1 ≠ g.1 →
      ∀ a ∈ f.2, ∀ b ∈ g.2, pyNorm a ≠ pyNorm b)
    (hkeys : (cmap.map Prod.fst).Nodup)
    (hcols : (df.map Prod.fst).Nodup)
    (hnames : ∀ c ∈ df, c.1 ∉ cmap.map Prod.fst)
    {f : String × List String} (hf : f ∈ cmap) :
    (renameColumns (buildRenameDict (df.map Prod.fst) cmap) df).filter
        (fun c => c.1 = f.1) =
      (match df.find? (fun c => aliasHit f.2 c.1) with
        | some c₀ => [(f.1, c₀.2)]
        | none => []) := by
  unfold renameColumns
  rw [List.filter_map]
  rcases hfind : df.find? (fun c => aliasHit f.2 c.1) with _ | c₀ <;> rw [hfind]
  · have h0 : df.filter ((fun c : Column => decide (c.1 = f.1)) ∘
        renameOne (buildRenameDict (df.map Prod.fst) cmap)) = [] := by
      rw [List.filter_eq_nil]
      intro c hc
      simp only [Function.comp_apply, decide_eq_true_eq]
      intro hname
      have h2 := (renameOne_name_eq_iff cmap df hdisj hkeys hnames hf c hc).mp hname
      rw [hfind] at h2
      cases h2
    rw [h0]
    rfl
  · have hc₀mem := List.mem_of_find?_eq_some hfind
    have heq1 : df.filter ((fun c : Column => decide (c.1 = f.1)) ∘
        renameOne (buildRenameDict (df.map Prod.fst) cmap)) =
        df.filter (fun c => c = c₀) := by
      apply List.filter_congr
      intro c hc
      simp only [Function.comp_apply]
      have hiff : ((renameOne (buildRenameDict (df.map Prod.fst) cmap) c).1 = f.1) ↔
          (c = c₀) := by
        rw [renameOne_name_eq_iff cmap df hdisj hkeys hnames hf c hc, hfind]
        simp only [Option.map_some']
        constructor
        · intro h
          exact nodup_map_eq Prod.fst df hcols c hc c₀ hc₀mem (Option.some.inj h).symm
        · intro h
          rw [h]
      exact decide_eq_decide.mpr hiff
    rw [heq1]
    rw [filter_eq_singleton_of_nodup df (List.Nodup.of_map _ hcols) c₀ hc₀mem]
    simp only [List.map_cons, List.map_nil]
    congr 1
    have hname : (renameOne (buildRenameDict (df.map Prod.fst) cmap) c₀).1 = f.1 :=
      (renameOne_name_eq_iff cmap df hdisj hkeys hnames hf c₀ hc₀mem).mpr
        (by rw [hfind]; rfl)
    exact Prod.ext hname (renameOne_snd _ c₀)

/-- The null-filled columns appended by `map_columns` contribute the
column for a key exactly when no frame column carries it. -/
lemma ensure_appended_filter (keys : List String) (hknd : keys.Nodup)
    (names : List String) (n : ℕ) {k : String} (hk : k ∈ keys) :
    ((keys.filter (fun k2 => !names.contains k2)).map
        (fun k2 => (k2, List.replicate n (none : Option String)))).filter
      (fun c => c.1 = k) =
      (if names.contains k then [] else [(k, List.replicate n none)]) := by
  rw [List.filter_map]
  have hcomp : ((fun c : Column => decide (c.1 = k)) ∘
      (fun k2 => (k2, List.replicate n (none : Option String)))) =
      fun k2 => decide (k2 = k) := by
    funext k2
    rfl
  rw [hcomp]
  rcases hc : names.contains k with _ | _
  · have hmem : k ∈ keys.filter (fun k2 => !names.contains k2) :=
      List.mem_filter.mpr ⟨hk, by show (!names.contains k) = true; rw [hc]; rfl⟩
    have hnd2 : (keys.filter (fun k2 => !names.contains k2)).Nodup :=
      List.Nodup.filter _ hknd
    rw [filter_eq_singleton_of_nodup _ hnd2 k hmem]
    simp
  · have hnil : (keys.filter (fun k2 => !names.contains k2)).filter
        (fun k2 => decide (k2 = k)) = [] := by
      rw [List.filter_eq_nil]
      intro x hx
      simp only [decide_eq_true_eq]
      intro hxk
      rw [hxk] at hx
      have h2 := List.of_mem_filter (p := fun k2 : String => !names.contains k2) hx
      have h3 : (!names.contains k) = true := h2
      rw [hc] at h3
      simp at h3
    rw [hnil]
    simp

/-- The fully assembled frame holds exactly one column per canonical
field: the first alias-matching source column's cells, or explicit
nulls. -/
lemma ensure_filter (cmap : ColumnMap) (df : List Column) (n : ℕ)
    (hdisj : ∀ f ∈ cmap, ∀ g ∈ cmap, f.1 ≠ g.1 →
      ∀ a ∈ f.2, ∀ b ∈ g.2, pyNorm a ≠ pyNorm b)
    (hkeys : (cmap.map Prod.fst).Nodup)
    (hcols : (df.map Prod.fst).Nodup)
    (hnames : ∀ c ∈ df, c.1 ∉ cmap.map Prod.fst)
    {f : String × List String} (hf : f ∈ cmap) :
    (ensureColumns n (cmap.map Prod.fst)
        (renameColumns (buildRenameDict (df.map Prod.fst) cmap) df)).filter
      (fun c => c.1 = f.1) =
      [(f.1, match df.find? (fun c => aliasHit f.2 c.1) with
        | some c₀ => c₀.2
        | none => List.replicate n (none : Option String))] := by
  unfold ensureColumns
  rw [List.filter_append]
  rw [renamed_filter cmap df hdisj hkeys hcols hnames hf]
  rw [ensure_appended_filter (cmap.map Prod.fst) hkeys
    ((renameColumns (buildRenameDict (df.map Prod.fst) cmap) df).map Prod.fst) n
    (List.mem_map_of_mem Prod.fst hf)]
  rcases hfind : df.find? (fun c => aliasHit f.2 c.1) with _ | c₀ <;> rw [hfind]
  · have hnc : ((renameColumns (buildRenameDict (df.map Prod.fst) cmap) df).map
        Prod.fst).contains f.1 = false := by
      rcases hh : ((renameColumns (buildRenameDict (df.map Prod.fst) cmap) df).map
          Prod.fst).contains f.1 with _ | _
      · rfl
      · exfalso
        have hmem := contains_iff_mem_str.mp hh
        obtain ⟨c2, hc2, hc2n⟩ := List.mem_map.mp hmem
        obtain ⟨c, hc, hcr⟩ := List.mem_map.mp hc2
        have hcname : (renameOne (buildRenameDict (df.map Prod.fst) cmap) c).1 = f.1 := by
          rw [hcr]
          exact hc2n
        have h2 := (renameOne_name_eq_iff cmap df hdisj hkeys hnames hf c hc).mp hcname
        rw [hfind] at h2
        cases h2
    rw [hnc]
    simp
  · have hc₀mem := List.mem_of_find?_eq_some hfind
    have hnc : ((renameColumns (buildRenameDict (df.map Prod.fst) cmap) df).map
        Prod.fst).contains f.1 = true := by
      apply contains_iff_mem_str.mpr
      have hname : (renameOne (buildRenameDict (df.map Prod.fst) cmap) c₀).1 = f.1 :=
        (renameOne_name_eq_iff cmap df hdisj hkeys hnames hf c₀ hc₀mem).mpr
          (by rw [hfind]; rfl)
      rw [← hname]
      exact List.mem_map_of_mem Prod.fst
        (List.mem_map_of_mem (renameOne (buildRenameDict (df.map Prod.fst) cmap)) hc₀mem)
    rw [hnc]
    simp

/-- **C5 (amended)**: for a source frame whose column labels are
pairwise distinct and never literally a canonical field name, and a
mapping table with distinct field names and pairwise-disjoint
normalized alias sets (both program tables qualify), `map_columns`
returns exactly the canonical fields as columns, in mapping order:
each field carries the cells of the first source column whose
normalized name matches one of its aliases — later matching columns
are ignored, fields with no match are filled with explicit nulls, and
unmatched source columns are dropped.  (Without those provisos the
claim fails — see the counterexample, where an unmatched source column
named exactly `grade` is retained and duplicates the canonical
column.) -/
theorem C5_map_columns (n : ℕ) (df : List Column) (cmap : ColumnMap)
    (hdisj : ∀ f ∈ cmap, ∀ g ∈ cmap, f.1 ≠ g.1 →
      ∀ a ∈ f.2, ∀ b ∈ g.2, pyNorm a ≠ pyNorm b)
    (hkeys : (cmap.map Prod.fst).Nodup)
    (hcols : (df.map Prod.fst).Nodup)
    (hnames : ∀ c ∈ df, c.1 ∉ cmap.map Prod.fst) :
    map_columns n df cmap = cmap.map (fun f => (f.1,
      match df.find? (fun c => aliasHit f.2 c.1) with
      | some c => c.2
      | none => List.replicate n (none : Option String))) := by
  unfold map_columns selectColumns
  rw [List.flatMap_map]
  exact flatMap_eq_map_of_singleton _ _ cmap fun f hf =>
    ensure_filter cmap df n hdisj hkeys hcols hnames hf

/-- Witness for C5 (amended) on the grade-summary mapping table: the
`Region/Grade` column is claimed by `grade`, `lots` and
`quantity_kgs` have no match and come back as nulls. -/
theorem C5_map_columns_witness :
    map_columns 2 [("Region/Grade", [some "BP1", some "PF1"])]
      COLUMN_MAP_GRADE_SUMMARY =
      COLUMN_MAP_GRADE_SUMMARY.map (fun f => (f.1,
        match [(("Region/Grade" : String), [some "BP1", some "PF1"])].find?
          (fun c => aliasHit f.2 c.1) with
        | some c => c.2
        | none => List.replicate 2 (none : Option String))) :=
  C5_map_columns 2 [("Region/Grade", [some "BP1", some "PF1"])]
    COLUMN_MAP_GRADE_SUMMARY (by decide) (by decide) (by decide) (by decide)

/-- **C5 counterexample**: the claim as stated (for *every* input
table) fails: with the grade-summary mapping table and source columns
`Region/Grade` and `grade`, the first is renamed to `grade` while the
second — matching no alias — keeps its label, which collides with the
canonical field name; label-based selection then returns both, so the
output columns are `grade, grade, lots, quantity_kgs` rather than
exactly the canonical fields, and an unmapped source column was not
dropped. -/
theorem C5_map_columns_counterexample :
    (map_columns 1 [("Region/Grade", [some "BP1"]), ("grade", [some "X"])]
        COLUMN_MAP_GRADE_SUMMARY).map Prod.fst ≠
      COLUMN_MAP_GRADE_SUMMARY.map Prod.fst := by decide

end TeaTrade
